import Mathlib

/-!
# Order lifecycle and inventory engine of `b2b-orders-system`

A shallow embedding of `src/orders-api/src/models/orderModel.js`.

* Tables are lists of rows.  `SELECT ... WHERE col = ?` is a `filter`, `rows[0]` is `head?`,
  `UPDATE ... WHERE id = ?` rewrites every row whose id matches, `INSERT` appends a row whose
  AUTO_INCREMENT id is one more than the largest id in the table.  The schema is not among the
  sources: `created_at` and `updated_at` are taken to be kept by the store (both set on insert,
  `updated_at` again on update).  Nothing below assumes that ids are unique; where they are
  not, "the product with id i" is the row the query returns first.
* A transaction is a `Conn`: the committed store together with the working copy that the
  statements issued on `connection` read and write.  One call runs at a time.  Statements issued
  on the pool (`db.execute`, as in `getOrderById`) run on another connection and read the
  committed store, not the uncommitted writes of the open transaction.
* Amounts are integers (`Int`); what JavaScript computes from them (a subtotal, a running
  total, a cursor) is rounded to the nearest double by `toDouble`, what the store computes
  (stock) is exact.  Instants are milliseconds since the epoch (`Nat`); `NOW()` and `new Date()`
  are the `now` argument of each operation.
-/

namespace B2BOrders

/-! ## Data model -/

/-- Row of `products`. -/
structure Product where
  id : Nat
  sku : String
  name : String
  price_cents : Int
  stock : Int
deriving DecidableEq

/-- Row of `orders`. -/
structure Order where
  id : Nat
  customer_id : Nat
  status : String
  total_cents : Int
  created_at : Nat
  updated_at : Nat
  confirmed_at : Option Nat
  canceled_at : Option Nat
deriving DecidableEq

/-- Row of `order_items`. -/
structure OrderItem where
  id : Nat
  order_id : Nat
  product_id : Nat
  qty : Int
  unit_price_cents : Int
  subtotal_cents : Int
deriving DecidableEq

/-- One element of the `items` argument of `createOrder`. -/
structure Item where
  product_id : Nat
  qty : Int
deriving DecidableEq

/-- Element of the local array `processedItems` of `createOrder`. -/
structure ProcessedItem where
  product_id : Nat
  qty : Int
  unit_price_cents : Int
  subtotal_cents : Int
deriving DecidableEq

/-- Row of the join `order_items oi JOIN products p` selected by `getOrderById`. -/
structure ItemRow where
  id : Nat
  product_id : Nat
  qty : Int
  unit_price_cents : Int
  subtotal_cents : Int
  product_name : String
  sku : String
deriving DecidableEq

/-- Object returned by `getOrderById`: the order row with its `items`. -/
structure OrderView where
  id : Nat
  customer_id : Nat
  status : String
  total_cents : Int
  created_at : Nat
  updated_at : Nat
  confirmed_at : Option Nat
  canceled_at : Option Nat
  items : List ItemRow
deriving DecidableEq

/-- A JSON text, represented by the value it parses to (`null` is `none`).  Instants stand for
both a `Date` and its ISO string, so serialising and parsing again gives the same value. -/
structure JsonText where
  value : Option OrderView
deriving DecidableEq

/-- Row of `idempotency_keys`. -/
structure IdempotencyKey where
  key : String
  target_type : String
  target_id : Nat
  status : String
  response_body : JsonText
  expires_at : Nat
deriving DecidableEq

/-- The database: the four tables the order model touches. -/
structure Store where
  products : List Product
  orders : List Order
  order_items : List OrderItem
  idempotency_keys : List IdempotencyKey
deriving DecidableEq

/-- The errors thrown by the order model. -/
inductive Err where
  | productNotFound (product_id : Nat)
  | insufficientStock (product_id : Nat)
  | orderNotFound
  | cannotConfirmCanceled
  | cancelWindowExpired
deriving DecidableEq

instance instDecidableEqExcept {ε α : Type} [DecidableEq ε] [DecidableEq α] :
    DecidableEq (Except ε α)
  | .ok a, .ok b => if h : a = b then isTrue (by rw [h]) else isFalse (fun h2 => h (by cases h2; rfl))
  | .error a, .error b =>
    if h : a = b then isTrue (by rw [h]) else isFalse (fun h2 => h (by cases h2; rfl))
  | .ok _, .error _ => isFalse (fun h => by cases h)
  | .error _, .ok _ => isFalse (fun h => by cases h)

/-- The `message` of each thrown `Error`. -/
def Err.message : Err → String
  | .productNotFound product_id => "Product " ++ toString product_id ++ " not found"
  | .insufficientStock product_id => "Insufficient stock for product " ++ toString product_id
  | .orderNotFound => "Order not found"
  | .cannotConfirmCanceled => "Cannot confirm a canceled order"
  | .cancelWindowExpired => "Cannot cancel order confirmed more than 10 minutes ago"

/-! ## JSON -/

/-- `JSON.stringify(result)`. -/
def JSON.stringify (result : Option OrderView) : JsonText := ⟨result⟩

/-- `JSON.parse(text)`. -/
def JSON.parse (text : JsonText) : Option OrderView := text.value

/-! ## SQL statements -/

/-- AUTO_INCREMENT: one more than the largest id present. -/
def nextId (ids : List Nat) : Nat := ids.foldr max 0 + 1

/-- `SELECT id, price_cents, stock FROM products WHERE id = ? FOR UPDATE`. -/
def selectProduct (db : Store) (product_id : Nat) : List Product :=
  db.products.filter (fun p => p.id = product_id)

/-- `UPDATE products SET stock = stock - ? WHERE id = ?`. -/
def deductStock (qty : Int) (product_id : Nat) (db : Store) : Store :=
  { db with products := (db.products.map
      (fun p => if p.id = product_id then { p with stock := p.stock - qty } else p)) }

/-- `UPDATE products SET stock = stock + ? WHERE id = ?`. -/
def restoreStock (qty : Int) (product_id : Nat) (db : Store) : Store :=
  { db with products := (db.products.map
      (fun p => if p.id = product_id then { p with stock := p.stock + qty } else p)) }

/-- `INSERT INTO orders (customer_id, status, total_cents) VALUES (?, ?, ?)`: the timestamps
take their column defaults. -/
def insertOrder (customer_id : Nat) (status : String) (total_cents : Int) (now : Nat)
    (db : Store) : Store :=
  { db with orders := db.orders ++
      [{ id := nextId (db.orders.map (fun o => o.id)), customer_id := customer_id,
         status := status, total_cents := total_cents, created_at := now, updated_at := now,
         confirmed_at := none, canceled_at := none }] }

/-- `INSERT INTO order_items (order_id, product_id, qty, unit_price_cents, subtotal_cents)
VALUES (?, ?, ?, ?, ?)`. -/
def insertOrderItem (order_id : Nat) (item : ProcessedItem) (db : Store) : Store :=
  { db with order_items := db.order_items ++
      [{ id := nextId (db.order_items.map (fun l => l.id)), order_id := order_id,
         product_id := item.product_id, qty := item.qty,
         unit_price_cents := item.unit_price_cents, subtotal_cents := item.subtotal_cents }] }

/-- `SELECT ... FROM orders WHERE id = ?`. -/
def selectOrder (db : Store) (order_id : Nat) : List Order :=
  db.orders.filter (fun o => o.id = order_id)

/-- `UPDATE orders SET status = ?, confirmed_at = NOW() WHERE id = ?`. -/
def updateOrderConfirmed (status : String) (order_id : Nat) (now : Nat) (db : Store) : Store :=
  { db with orders := (db.orders.map
      (fun o => if o.id = order_id then
        { o with status := status, confirmed_at := some now, updated_at := now } else o)) }

/-- `UPDATE orders SET status = ?, canceled_at = NOW() WHERE id = ?`. -/
def updateOrderCanceled (status : String) (order_id : Nat) (now : Nat) (db : Store) : Store :=
  { db with orders := (db.orders.map
      (fun o => if o.id = order_id then
        { o with status := status, canceled_at := some now, updated_at := now } else o)) }

/-- `SELECT product_id, qty FROM order_items WHERE order_id = ?`. -/
def selectOrderItems (db : Store) (order_id : Nat) : List OrderItem :=
  db.order_items.filter (fun l => l.order_id = order_id)

/-- `SELECT * FROM idempotency_keys WHERE key = ?`. -/
def selectKey (db : Store) (key : String) : List IdempotencyKey :=
  db.idempotency_keys.filter (fun r => r.key = key)

/-- `INSERT INTO idempotency_keys (key, target_type, target_id, status, response_body,
expires_at) VALUES (?, ?, ?, ?, ?, ?)`. -/
def insertKey (row : IdempotencyKey) (db : Store) : Store :=
  { db with idempotency_keys := db.idempotency_keys ++ [row] }

/-! ## Connections and transactions -/

/-- A connection taken from the pool: the committed store and the working copy seen by the
statements of the open transaction. -/
structure Conn where
  committed : Store
  work : Store
deriving DecidableEq

/-- `db.getConnection()` followed by `connection.beginTransaction()`. -/
def beginTransaction (db : Store) : Conn := ⟨db, db⟩

/-- `connection.execute` of a writing statement. -/
def Conn.execute (c : Conn) (stmt : Store → Store) : Conn := { c with work := stmt c.work }

/-- `connection.commit()`. -/
def Conn.commit (c : Conn) : Conn := ⟨c.work, c.work⟩

/-- `connection.rollback()`. -/
def Conn.rollback (c : Conn) : Conn := ⟨c.committed, c.committed⟩

/-! ## `OrderModel.getProduct`, `OrderModel.getOrderById` -/

/-- `OrderModel.getProduct`: `rows[0] || null`. -/
def getProduct (db : Store) (product_id : Nat) : Option Product :=
  (selectProduct db product_id).head?

/-- The item query of `getOrderById`: `order_items oi JOIN products p ON oi.product_id = p.id
WHERE oi.order_id = ?`. -/
def selectItemRows (db : Store) (order_id : Nat) : List ItemRow :=
  (selectOrderItems db order_id).flatMap (fun oi =>
    (selectProduct db oi.product_id).map (fun p =>
      { id := oi.id, product_id := oi.product_id, qty := oi.qty,
        unit_price_cents := oi.unit_price_cents, subtotal_cents := oi.subtotal_cents,
        product_name := p.name, sku := p.sku }))

/-- `OrderModel.getOrderById`.  It runs on the pool (`db.execute`), so `db` is the committed
store at the time of the call. -/
def getOrderById (db : Store) (order_id : Nat) : Option OrderView :=
  match selectOrder db order_id with
  | [] => none
  | order :: _ =>
    some { id := order.id, customer_id := order.customer_id, status := order.status,
           total_cents := order.total_cents, created_at := order.created_at,
           updated_at := order.updated_at, confirmed_at := order.confirmed_at,
           canceled_at := order.canceled_at, items := selectItemRows db order_id }

/-! ## JavaScript numbers -/

/-- Number of low bits to drop from `m` so that fewer than 54 bits remain; `fuel` bounds the
search and `m` itself is always enough. -/
def roundShift : Nat → Nat → Nat
  | 0, _ => 0
  | fuel + 1, m => if m < 2 ^ 53 then 0 else roundShift fuel (m / 2) + 1

/-- The JavaScript number (IEEE 754 double) nearest to the integer `n`, ties going to the even
significand: the value of an arithmetic operation whose exact result is `n`.  Integers up to
2^53 in absolute value are kept; larger ones keep their 53 leading bits.  (From 2^1024 on the
double is an infinity, which is not represented.) -/
def toDouble (n : Int) : Int :=
  if n.natAbs ≤ 2 ^ 53 then n
  else
    let k := roundShift n.natAbs n.natAbs
    let q := n.natAbs / 2 ^ k
    let r := n.natAbs % 2 ^ k
    let q1 := if 2 ^ k < 2 * r ∨ (2 * r = 2 ^ k ∧ q % 2 = 1) then q + 1 else q
    if n < 0 then - ((q1 * 2 ^ k : Nat) : Int) else ((q1 * 2 ^ k : Nat) : Int)

/-! ## `OrderModel.createOrder` -/

/-- The loop `for (const item of items)` of `createOrder`, with the loop variables
`totalCents` and `processedItems`.  It returns the connection as it stands when the loop ends
or throws.  `subtotal` and `totalCents` are JavaScript numbers: the product and the running sum
are rounded as `toDouble` says.  The values read from the store and from the request are taken
as they are. -/
def reserveItems (c : Conn) (totalCents : Int) (processedItems : List ProcessedItem) :
    List Item → Conn × Except Err (Int × List ProcessedItem)
  | [] => (c, .ok (totalCents, processedItems))
  | item :: rest =>
    match (selectProduct c.work item.product_id).head? with
    | none => (c, .error (.productNotFound item.product_id))
    | some product =>
      if product.stock < item.qty then
        (c, .error (.insufficientStock item.product_id))
      else
        reserveItems (c.execute (deductStock item.qty item.product_id))
          (toDouble (totalCents + toDouble (product.price_cents * item.qty)))
          (processedItems ++ [{ product_id := item.product_id, qty := item.qty,
                                unit_price_cents := product.price_cents,
                                subtotal_cents := toDouble (product.price_cents * item.qty) }])
          rest

/-- The loop `for (const item of processedItems)` of `createOrder`. -/
def insertItems (orderId : Nat) : Conn → List ProcessedItem → Conn
  | c, [] => c
  | c, item :: rest => insertItems orderId (c.execute (insertOrderItem orderId item)) rest

/-- `OrderModel.createOrder(customerId, items)`: the committed store after the call and the
returned order id or the thrown error. -/
def createOrder (db : Store) (customerId : Nat) (items : List Item) (now : Nat) :
    Store × Except Err Nat :=
  let c := beginTransaction db
  match reserveItems c 0 [] items with
  | (c, .error err) => (c.rollback.committed, .error err)
  | (c, .ok (totalCents, processedItems)) =>
    let orderId := nextId (c.work.orders.map (fun o => o.id))
    let c := c.execute (insertOrder customerId "CREATED" totalCents now)
    let c := insertItems orderId c processedItems
    (c.commit.committed, .ok orderId)

/-! ## `OrderModel.confirmOrder` -/

/-- The test `if (idempotencyKey)`: `undefined` and the empty string are falsy. -/
def suppliedKey : Option String → Option String
  | none => none
  | some key => if key = "" then none else some key

/-- The instant `expiresAt` computed by `confirmOrder`: `new Date()` with its hours advanced
by 24, which is 24 hours later when the local clock is not shifted in between. -/
def expiresAt (now : Nat) : Nat := now + 24 * 60 * 60 * 1000

/-- The part of `confirmOrder` after the idempotency check: from `// Get order` on. -/
def confirmLocked (c : Conn) (orderId : Nat) (idempotencyKey : Option String) (now : Nat) :
    Store × Except Err (Option OrderView) :=
  match selectOrder c.work orderId with
  | [] => (c.rollback.committed, .error .orderNotFound)
  | order :: _ =>
    if order.status = "CONFIRMED" then
      let result := getOrderById c.committed orderId
      (c.commit.committed, .ok result)
    else if order.status = "CANCELED" then
      (c.rollback.committed, .error .cannotConfirmCanceled)
    else
      let c := c.execute (updateOrderConfirmed "CONFIRMED" orderId now)
      let result := getOrderById c.committed orderId
      let c := match suppliedKey idempotencyKey with
        | some key =>
          c.execute (insertKey
            { key := key, target_type := "order_confirmation", target_id := orderId,
              status := "completed", response_body := JSON.stringify result,
              expires_at := expiresAt now })
        | none => c
      (c.commit.committed, .ok result)

/-- `OrderModel.confirmOrder(orderId, idempotencyKey)`: the committed store after the call and
the returned value or the thrown error. -/
def confirmOrder (db : Store) (orderId : Nat) (idempotencyKey : Option String) (now : Nat) :
    Store × Except Err (Option OrderView) :=
  let c := beginTransaction db
  match suppliedKey idempotencyKey with
  | some key =>
    match selectKey c.work key with
    | cachedKey :: _ => (c.rollback.committed, .ok (JSON.parse cachedKey.response_body))
    | [] => confirmLocked c orderId idempotencyKey now
  | none => confirmLocked c orderId idempotencyKey now

/-! ## `OrderModel.cancelOrder` -/

/-- The loop `for (const item of items)` of `cancelOrder`. -/
def restoreItems : Conn → List OrderItem → Conn
  | c, [] => c
  | c, item :: rest => restoreItems (c.execute (restoreStock item.qty item.product_id)) rest

/-- The test `diffMinutes > 10` of `cancelOrder`, on instants in milliseconds;
`new Date(null)` is the epoch. -/
def windowExpired (confirmed_at : Option Nat) (now : Nat) : Bool :=
  decide ((now : Int) - ((confirmed_at.getD 0 : Nat) : Int) > 10 * 60 * 1000)

/-- `OrderModel.cancelOrder(orderId)`: the committed store after the call and the returned
value or the thrown error. -/
def cancelOrder (db : Store) (orderId : Nat) (now : Nat) :
    Store × Except Err (Option OrderView) :=
  let c := beginTransaction db
  match selectOrder c.work orderId with
  | [] => (c.rollback.committed, .error .orderNotFound)
  | order :: _ =>
    if order.status = "CANCELED" then
      let c := c.commit
      (c.committed, .ok (getOrderById c.committed orderId))
    else if order.status = "CONFIRMED" ∧ windowExpired order.confirmed_at now = true then
      (c.rollback.committed, .error .cancelWindowExpired)
    else
      let c := restoreItems c (selectOrderItems c.work orderId)
      let c := c.execute (updateOrderCanceled "CANCELED" orderId now)
      let c := c.commit
      (c.committed, .ok (getOrderById c.committed orderId))

/-! ## `OrderModel.updateProduct` -/

/-- `OrderModel.updateProduct(id, { price_cents, stock })`; `none` is `undefined`.  It runs on
the pool, outside any transaction.  The boolean is `result.affectedRows > 0`, the UPDATE having
matched a row. -/
def updateProduct (db : Store) (id : Nat) (price_cents stock : Option Int) : Store × Bool :=
  if price_cents = none ∧ stock = none then
    (db, false)
  else
    ({ db with products := (db.products.map (fun p =>
        if p.id = id then
          { p with price_cents := price_cents.getD p.price_cents, stock := stock.getD p.stock }
        else p)) },
     decide (selectProduct db id ≠ []))

/-! ## Sequences of calls -/

/-- One call of the order model. -/
inductive Op where
  | createOrder (customerId : Nat) (items : List Item) (now : Nat)
  | confirmOrder (orderId : Nat) (idempotencyKey : Option String) (now : Nat)
  | cancelOrder (orderId : Nat) (now : Nat)
  | updateProduct (id : Nat) (price_cents stock : Option Int)

/-- The committed store after one call. -/
def step (db : Store) : Op → Store
  | .createOrder customerId items now => (createOrder db customerId items now).1
  | .confirmOrder orderId idempotencyKey now => (confirmOrder db orderId idempotencyKey now).1
  | .cancelOrder orderId now => (cancelOrder db orderId now).1
  | .updateProduct id price_cents stock => (updateProduct db id price_cents stock).1

/-- The committed store after a sequence of calls, one after the other. -/
def run (db : Store) : List Op → Store
  | [] => db
  | op :: ops => run (step db op) ops

/-! ## `OrderModel.searchOrders` -/

/-- Row of the search query: the order columns it selects. -/
structure OrderSummary where
  id : Nat
  customer_id : Nat
  status : String
  total_cents : Int
  created_at : Nat
  confirmed_at : Option Nat
  canceled_at : Option Nat
deriving DecidableEq

/-- Object returned by `searchOrders`. -/
structure SearchResult where
  data : List OrderSummary
  cursor : Int
  hasMore : Bool
deriving DecidableEq

/-- `a || b` on numbers: `NaN`, which is `none`, and 0 are falsy. -/
def orElse (a : Option Int) (b : Int) : Int :=
  match a with
  | none => b
  | some v => if v = 0 then b else v

/-- The `offset` of `searchOrders`: `Math.max(0, parseInt(cursor, 10) || 0)`.  `parseInt` is the
JavaScript built-in with radix 10, `none` standing for `NaN`. -/
def offset (parseInt : String → Option Int) (cursor : String) : Int :=
  max 0 (orElse (parseInt cursor) 0)

/-- The `pageLimit` of `searchOrders`:
`Math.min(Math.max(1, parseInt(limit, 10) || 20), 100)`. -/
def pageLimit (parseInt : String → Option Int) (limit : String) : Int :=
  min (max 1 (orElse (parseInt limit) 20)) 100

/-- `ORDER BY id DESC`. -/
def idDesc (a b : Order) : Prop := b.id ≤ a.id

instance idDescDecidable : DecidableRel idDesc := fun a b => Nat.decLe b.id a.id

/-- The `WHERE` clause built by `searchOrders`: each filter applies when its argument is
truthy (`none` is `undefined`, the empty string is falsy). -/
def searchFilter (status : Option String) (from_at to_at : Option Nat) (o : Order) : Bool :=
  (match status with
    | some st => if st = "" then true else decide (o.status = st)
    | none => true) &&
  (match from_at with
    | some t => decide (t ≤ o.created_at)
    | none => true) &&
  (match to_at with
    | some t => decide (o.created_at ≤ t)
    | none => true)

/-- `OrderModel.searchOrders({ status, from, to, cursor, limit })`, on the pool; `none` when
the statement is rejected and the call throws.  `offset` is written into the SQL text, where
`OFFSET` takes an unsigned 64-bit integer literal: from 2^64 on the text is no such literal
(and from 10^21 on JavaScript writes the number in exponent form), so the statement is a
syntax error.  The returned `cursor` is a JavaScript sum.  (Beyond 2^53 JavaScript may write
the offset with its last digits rounded; the rows are taken here from `offset` itself.) -/
def searchOrders (parseInt : String → Option Int) (db : Store) (status : Option String)
    (from_at to_at : Option Nat) (cursor limit : String) : Option SearchResult :=
  if 2 ^ 64 ≤ offset parseInt cursor then none
  else
    let rows := (((db.orders.filter (searchFilter status from_at to_at)).insertionSort
      idDesc).drop (offset parseInt cursor).toNat).take (pageLimit parseInt limit).toNat
    some
      { data := rows.map (fun o =>
          { id := o.id, customer_id := o.customer_id, status := o.status,
            total_cents := o.total_cents, created_at := o.created_at,
            confirmed_at := o.confirmed_at, canceled_at := o.canceled_at }),
        cursor := toDouble (offset parseInt cursor + rows.length),
        hasMore := decide ((rows.length : Int) = pageLimit parseInt limit) }

/-! ## The orchestrator: `createAndConfirmOrder` of `lambda-orchestrator/handler.js` -/

/-- Customer record returned by the customer lookup. -/
structure Customer where
  id : Nat
  name : String
  email : String
  phone : String
deriving DecidableEq

/-- The validated request: `value` of `requestSchema.validate(body)`. -/
structure OrderRequest where
  customer_id : Nat
  items : List Item
  idempotency_key : String
  correlation_id : Option String
deriving DecidableEq

/-- The body of the event as `JSON.parse` and `requestSchema.validate` leave it: `JSON.parse`
throws, validation fails with `error.details[0].message`, or validation gives `value`. -/
inductive Body where
  | unparsable
  | invalid (message : String)
  | valid (value : OrderRequest)

/-- Envelope `{success, data, error}` of a service response (`response.data`). -/
structure Envelope (α : Type) where
  success : Bool
  data : Option α
  error : Option String

/-- Outcome of an `axios` call: a response, or an exception carrying
`err.response?.data?.error` if any (transport failure, or a status outside 2xx). -/
inductive HttpResult (α : Type) where
  | response (data : Envelope α)
  | thrown (error : Option String)

/-- The two services the orchestrator calls. -/
structure Services where
  getCustomer : Nat → HttpResult Customer
  postOrder : Nat → List Item → HttpResult OrderView
  postConfirm : Nat → String → HttpResult OrderView

/-- A call issued by the orchestrator. -/
inductive Call where
  | getCustomer (customer_id : Nat)
  | postOrder (customer_id : Nat) (items : List Item)
  | postConfirm (order_id : Nat) (idempotency_key : String)
deriving DecidableEq

/-- Element of `order.items` in the aggregated response. -/
structure AggregatedItem where
  product_id : Nat
  product_name : String
  sku : String
  qty : Int
  unit_price_cents : Int
  subtotal_cents : Int
deriving DecidableEq

/-- The `order` of the aggregated response. -/
structure AggregatedOrder where
  id : Nat
  status : String
  total_cents : Int
  items : List AggregatedItem
deriving DecidableEq

/-- Body of the response of the orchestrator. -/
inductive ResponseBody where
  | validationError (error : String)
  | failure (error : String) (correlationId : Option String)
  | internalError
  | success (correlationId : Option String) (customer : Customer) (order : AggregatedOrder)
deriving DecidableEq

/-- Response of the orchestrator. -/
structure Response where
  statusCode : Nat
  body : ResponseBody
deriving DecidableEq

/-- `error || fallback` on strings: `undefined`, which is `none`, and the empty string are
falsy. -/
def errorOr (error : Option String) (fallback : String) : String :=
  match error with
  | none => fallback
  | some e => if e = "" then fallback else e

/-- The `order` object the orchestrator builds from the confirmed order. -/
def aggregateOrder (order : OrderView) : AggregatedOrder :=
  { id := order.id, status := order.status, total_cents := order.total_cents,
    items := order.items.map (fun item =>
      { product_id := item.product_id, product_name := item.product_name, sku := item.sku,
        qty := item.qty, unit_price_cents := item.unit_price_cents,
        subtotal_cents := item.subtotal_cents }) }

/-- Step 3 of `createAndConfirmOrder`, with the calls issued so far. -/
def confirmStep (svc : Services) (value : OrderRequest) (customer : Customer)
    (order : OrderView) (calls : List Call) : Response × List Call :=
  let calls := calls ++ [.postConfirm order.id value.idempotency_key]
  match svc.postConfirm order.id value.idempotency_key with
  | .thrown error =>
    (⟨400, .failure (errorOr error "Failed to confirm order") value.correlation_id⟩, calls)
  | .response confirmResponse =>
    if confirmResponse.success = false then
      (⟨400, .failure (errorOr confirmResponse.error "Failed to confirm order")
        value.correlation_id⟩, calls)
    else
      match confirmResponse.data with
      | none => (⟨400, .failure "Failed to confirm order" value.correlation_id⟩, calls)
      | some order =>
        (⟨201, .success value.correlation_id customer (aggregateOrder order)⟩, calls)

/-- Step 2 of `createAndConfirmOrder`, with the calls issued so far. -/
def createStep (svc : Services) (value : OrderRequest) (customer : Customer)
    (calls : List Call) : Response × List Call :=
  let calls := calls ++ [.postOrder value.customer_id value.items]
  match svc.postOrder value.customer_id value.items with
  | .thrown error =>
    (⟨400, .failure (errorOr error "Failed to create order") value.correlation_id⟩, calls)
  | .response orderResponse =>
    if orderResponse.success = false then
      (⟨400, .failure (errorOr orderResponse.error "Failed to create order")
        value.correlation_id⟩, calls)
    else
      match orderResponse.data with
      | none => (⟨400, .failure "Failed to create order" value.correlation_id⟩, calls)
      | some order => confirmStep svc value customer order calls

/-- `createAndConfirmOrder(event)`: the response and the calls issued, in the order they were
issued.  A response with `success` true and no `data` makes the step throw when it reads the
data, which its `catch` turns into the failure of the step. -/
def createAndConfirmOrder (svc : Services) (body : Body) : Response × List Call :=
  match body with
  | .unparsable => (⟨500, .internalError⟩, [])
  | .invalid message => (⟨400, .validationError message⟩, [])
  | .valid value =>
    let calls := [Call.getCustomer value.customer_id]
    match svc.getCustomer value.customer_id with
    | .thrown _ =>
      (⟨404, .failure "Customer not found or service unavailable" value.correlation_id⟩, calls)
    | .response customerResponse =>
      if customerResponse.success = false then
        (⟨404, .failure "Customer not found" value.correlation_id⟩, calls)
      else
        match customerResponse.data with
        | none =>
          (⟨404, .failure "Customer not found or service unavailable" value.correlation_id⟩,
           calls)
        | some customer => createStep svc value customer calls

/-! ## Specification-side notions -/

/-- Total quantity requested in `items` for product `product_id`. -/
def reservedQty (items : List Item) (product_id : Nat) : Int :=
  ((items.filter (fun it => it.product_id = product_id)).map (fun it => it.qty)).sum

/-- The store with the stock of every product row lowered by `g` of its id. -/
def adjustStock (g : Nat → Int) (db : Store) : Store :=
  { db with products := (db.products.map (fun p => { p with stock := p.stock - g p.id })) }

/-- Price of product `product_id` in `db` (0 when it has no row). -/
def priceOf (db : Store) (product_id : Nat) : Int :=
  ((getProduct db product_id).map (fun p => p.price_cents)).getD 0

/-- The order line that a request item stands for, without its id, with the exact subtotal
`price × qty`. -/
def lineOf (db : Store) (orderId : Nat) (it : Item) : Nat × Nat × Int × Int × Int :=
  (orderId, it.product_id, it.qty, priceOf db it.product_id, priceOf db it.product_id * it.qty)

/-- The order line that `createOrder` persists for a request item, without its id: its
subtotal is the product as JavaScript computes it. -/
def jsLineOf (db : Store) (orderId : Nat) (it : Item) : Nat × Nat × Int × Int × Int :=
  (orderId, it.product_id, it.qty, priceOf db it.product_id,
    toDouble (priceOf db it.product_id * it.qty))

/-- The total `createOrder` computes: the subtotals added up one by one from `acc`, each
product and each sum as JavaScript computes it. -/
def jsTotal (db : Store) : Int → List Item → Int
  | acc, [] => acc
  | acc, it :: rest =>
    jsTotal db (toDouble (acc + toDouble (priceOf db it.product_id * it.qty))) rest

/-- Every `price × qty` of the items, and every running sum of them from `acc`, is at most
2^53 in absolute value, the range in which JavaScript numbers are exact. -/
def safeAmounts (db : Store) : Int → List Item → Bool
  | _, [] => true
  | acc, it :: rest =>
    decide ((priceOf db it.product_id * it.qty).natAbs ≤ 2 ^ 53) &&
    (decide ((acc + priceOf db it.product_id * it.qty).natAbs ≤ 2 ^ 53) &&
     safeAmounts db (acc + priceOf db it.product_id * it.qty) rest)

/-- The columns of an order line other than its id. -/
def OrderItem.columns (l : OrderItem) : Nat × Nat × Int × Int × Int :=
  (l.order_id, l.product_id, l.qty, l.unit_price_cents, l.subtotal_cents)

/-- The failure condition of `createOrder` in the words of the specification: going through
the items in request order, with `earlier` the items already reserved, the first item whose
product has no row, or whose product has fewer units left than the item asks for, decides the
error; `none` when there is no such item. -/
def firstFailure (db : Store) : List Item → List Item → Option Err
  | _, [] => none
  | earlier, item :: rest =>
    match getProduct db item.product_id with
    | none => some (.productNotFound item.product_id)
    | some product =>
      if product.stock - reservedQty earlier item.product_id < item.qty then
        some (.insufficientStock item.product_id)
      else
        firstFailure db (earlier ++ [item]) rest

/-- Every product has stock ≥ 0: for every id, the row `getProduct` returns, if any, has a
non-negative stock. -/
def StockNonneg (db : Store) : Prop :=
  ∀ product_id product, getProduct db product_id = some product → 0 ≤ product.stock

/-- Total quantity of the order lines `lines` that reference product `product_id`. -/
def restoredQty (lines : List OrderItem) (product_id : Nat) : Int :=
  ((lines.filter (fun l => l.product_id = product_id)).map (fun l => l.qty)).sum

/-- Status of order `order_id`: that of the row the order query returns first, if any. -/
def statusOf (db : Store) (order_id : Nat) : Option String :=
  (selectOrder db order_id).head?.map (fun o => o.status)

/-- The three order statuses. -/
def ValidStatus (status : String) : Prop :=
  status = "CREATED" ∨ status = "CONFIRMED" ∨ status = "CANCELED"

/-- Sum of `unit_price_cents × qty` over the lines of order `order_id`. -/
def lineTotal (lines : List OrderItem) (order_id : Nat) : Int :=
  ((lines.filter (fun l => l.order_id = order_id)).map
    (fun l => l.unit_price_cents * l.qty)).sum

/-- Every order line belongs to an order of the store (the foreign key of `order_items`). -/
def LinesBelong (db : Store) : Prop :=
  ∀ l ∈ db.order_items, ∃ o ∈ db.orders, o.id = l.order_id

/-- Every order's total is the sum over its lines of `unit_price_cents × qty`. -/
def TotalsMatch (db : Store) : Prop :=
  ∀ o ∈ db.orders, o.total_cents = lineTotal db.order_items o.id

/-- A store reached from one with no orders and no order lines by a sequence of calls. -/
def Reachable (db : Store) : Prop :=
  ∃ start ops, start.orders = [] ∧ start.order_items = [] ∧ db = run start ops

/-- The call keeps its amounts exact: for a `createOrder`, every `price × qty` and every running
sum is at most 2^53 in absolute value. -/
def safeOp (db : Store) : Op → Bool
  | .createOrder _ items _ => safeAmounts db 0 items
  | _ => true

/-- Every call of the sequence, run from `db`, keeps its amounts exact. -/
def safeRun : Store → List Op → Bool
  | _, [] => true
  | db, op :: ops => safeOp db op && safeRun (step db op) ops

/-- A store reached from one with no orders and no order lines by a sequence of calls that
keep their amounts exact. -/
def ReachableSafe (db : Store) : Prop :=
  ∃ start ops, start.orders = [] ∧ start.order_items = [] ∧ safeRun start ops = true ∧
    db = run start ops

/-- The order row that a successful `createOrder` inserts. -/
def createdOrder (db : Store) (customerId : Nat) (items : List Item) (now : Nat) : Order :=
  { id := nextId (db.orders.map (fun o => o.id)), customer_id := customerId,
    status := "CREATED", total_cents := jsTotal db 0 items,
    created_at := now, updated_at := now, confirmed_at := none, canceled_at := none }

/-- How one call may change the status of an order: an order that does not exist stays absent
or appears as CREATED; an existing order keeps its status, or goes to CONFIRMED from a status
that is neither CONFIRMED nor CANCELED, or goes to CANCELED from a status other than
CANCELED. -/
def StatusStep : Option String → Option String → Prop
  | none, after => after = none ∨ after = some "CREATED"
  | some s, after =>
    after = some s ∨ (after = some "CONFIRMED" ∧ s ≠ "CONFIRMED" ∧ s ≠ "CANCELED") ∨
      (after = some "CANCELED" ∧ s ≠ "CANCELED")

/-- The data of a call that returned success, `none` when the call threw, reported
`success: false` or carried no data. -/
def succeeded {α : Type} : HttpResult α → Option α
  | .response ⟨true, some d, _⟩ => some d
  | _ => none

/-- The orders that match the filters of a search, in descending id order, as the search
query selects them. -/
def matchingOrders (db : Store) (status : Option String) (from_at to_at : Option Nat) :
    List OrderSummary :=
  ((db.orders.filter (searchFilter status from_at to_at)).insertionSort idDesc).map (fun o =>
    { id := o.id, customer_id := o.customer_id, status := o.status,
      total_cents := o.total_cents, created_at := o.created_at,
      confirmed_at := o.confirmed_at, canceled_at := o.canceled_at })

/-- The error of a result, if it is one. -/
def errorOf {α : Type} : Except Err α → Option Err
  | .error e => some e
  | .ok _ => none

/-! ## Example stores -/

def scn0 : Store :=
  { products := [⟨10, "SKU-10", "Widget", 1000, 5⟩], orders := [], order_items := [],
    idempotency_keys := [] }

/-- One product priced 94906267 with ample stock, no orders. -/
def bigStore : Store :=
  { products := [⟨10, "SKU-10", "Widget", 94906267, 100000000⟩], orders := [],
    order_items := [], idempotency_keys := [] }

/-- The store reached from `bigStore` by one `createOrder` for 94906267 units. -/
def bigReached : Store := run bigStore [.createOrder 1 [⟨10, 94906267⟩] 7]

/-- One product with no stock, no orders. -/
def c4Start : Store :=
  { products := [⟨1, "SKU-1", "Bolt", 100, 0⟩], orders := [], order_items := [],
    idempotency_keys := [] }

/-- The store reached from `c4Start` by `createOrder(1, [{product 1, qty -5}])` followed by
`createOrder(1, [{product 1, qty 5}])`. -/
def c4Reached : Store :=
  (createOrder (createOrder c4Start 1 [⟨1, -5⟩] 0).1 1 [⟨1, 5⟩] 0).1

/-- The scenario store after `createOrder(1, [{product 10, qty 2}])`: order 1 is CREATED. -/
def scn1 : Store := (createOrder scn0 1 [⟨10, 2⟩] 7).1

/-- The scenario store after order 1 is confirmed under key "abc" and then canceled within
the window. -/
def c7Store : Store := (cancelOrder (confirmOrder scn1 1 (some "abc") 9).1 1 12).1

/-- The scenario store after a second order is created and order 1 is confirmed under key
"abc": order 2 is still CREATED. -/
def c10Store : Store :=
  (confirmOrder (createOrder scn1 1 [⟨10, 1⟩] 8).1 1 (some "abc") 9).1

/-- The scenario store after order 1 is confirmed without a key. -/
def scn2 : Store := (confirmOrder scn1 1 none 9).1

/-- The record that `c10Store` and `c7Store` hold for key "abc": it was written for order 1 and
holds the order as `getOrderById` returned it during that confirmation. -/
def abcRecord (payload : Option OrderView) : IdempotencyKey :=
  { key := "abc", target_type := "order_confirmation", target_id := 1, status := "completed",
    response_body := JSON.stringify payload, expires_at := 9 + 24 * 60 * 60 * 1000 }

/-- A sequence of calls on the scenario store: two orders are created, the first is confirmed,
canceled, then confirmed and canceled again, the second is canceled and then confirmed. -/
def c14Ops : List Op :=
  [.createOrder 1 [⟨10, 2⟩] 7, .createOrder 1 [⟨10, 1⟩] 8, .confirmOrder 1 (some "abc") 9,
   .cancelOrder 1 12, .confirmOrder 1 none 13, .cancelOrder 1 14, .cancelOrder 2 15,
   .confirmOrder 2 (some "k2") 16, .updateProduct 10 (some 1500) none]

/-- Values of `parseInt(s, 10)` on a few strings; every other string is taken as unparsable. -/
def sampleParseInt : String → Option Int
  | "0" => some 0
  | "1" => some 1
  | "2" => some 2
  | "40" => some 40
  | "250" => some 250
  | "-3" => some (-3)
  | "99999999999999999999999" => some 99999999999999991611392
  | _ => none

/-- A store with three orders. -/
def c16Store : Store := run scn0
  [.createOrder 1 [⟨10, 1⟩] 7, .createOrder 1 [⟨10, 1⟩] 8, .createOrder 2 [⟨10, 1⟩] 9]

/-- A customer and an order as the services return them. -/
def sampleCustomer : Customer := ⟨1, "Acme", "buyer@acme.test", "555-0100"⟩

/-- The order as the create call returns it. -/
def sampleCreated : OrderView :=
  ⟨7, 1, "CREATED", 2000, 7, 7, none, none, [⟨1, 10, 2, 1000, 2000, "Widget", "SKU-10"⟩]⟩

/-- The order as the confirm call returns it. -/
def sampleConfirmed : OrderView :=
  ⟨7, 1, "CONFIRMED", 2000, 7, 9, some 9, none, [⟨1, 10, 2, 1000, 2000, "Widget", "SKU-10"⟩]⟩

/-- Services where every call succeeds. -/
def servicesOk : Services :=
  { getCustomer := fun _ => .response ⟨true, some sampleCustomer, none⟩,
    postOrder := fun _ _ => .response ⟨true, some sampleCreated, none⟩,
    postConfirm := fun _ _ => .response ⟨true, some sampleConfirmed, none⟩ }

/-- Services where the customer lookup throws. -/
def servicesNoCustomer : Services :=
  { servicesOk with getCustomer := fun _ => .thrown none }

/-- Services where the create call is refused for lack of stock. -/
def servicesNoStock : Services :=
  { servicesOk with postOrder := fun _ _ => .thrown (some "Insufficient stock for product 10") }

/-- A valid request. -/
def sampleRequest : OrderRequest := ⟨1, [⟨10, 2⟩], "abc", some "corr-1"⟩

/-! ## Lemmas on the SQL statements -/

theorem adjustStock_zero (db : Store) : adjustStock (fun _ => 0) db = db := by
  cases db; simp [adjustStock]

theorem adjustStock_adjustStock (g h : Nat → Int) (db : Store) :
    adjustStock g (adjustStock h db) = adjustStock (fun i => h i + g i) db := by
  simp [adjustStock, List.map_map, Function.comp_def, sub_sub]

theorem deductStock_eq_adjustStock (qty : Int) (product_id : Nat) (db : Store) :
    deductStock qty product_id db = adjustStock (fun i => if i = product_id then qty else 0) db := by
  simp only [deductStock, adjustStock]
  congr 1
  apply List.map_congr_left
  intro p _
  split <;> simp

theorem selectProduct_adjustStock (g : Nat → Int) (db : Store) (i : Nat) :
    selectProduct (adjustStock g db) i
      = (selectProduct db i).map (fun p => { p with stock := p.stock - g i }) := by
  simp only [selectProduct, adjustStock, List.filter_map]
  have : ((fun p : Product => decide (p.id = i)) ∘ fun p => { p with stock := p.stock - g p.id })
      = fun p : Product => decide (p.id = i) := by
    funext p; simp
  rw [this]
  apply List.map_congr_left
  intro p hp
  have := (List.mem_filter.1 hp).2
  simp at this
  simp [this]

theorem getProduct_adjustStock (g : Nat → Int) (db : Store) (i : Nat) :
    getProduct (adjustStock g db) i
      = (getProduct db i).map (fun p => { p with stock := p.stock - g i }) := by
  simp [getProduct, selectProduct_adjustStock, List.head?_map]

theorem priceOf_adjustStock (g : Nat → Int) (db : Store) (i : Nat) :
    priceOf (adjustStock g db) i = priceOf db i := by
  simp only [priceOf, getProduct_adjustStock]
  cases getProduct db i <;> simp

theorem reservedQty_nil (i : Nat) : reservedQty [] i = 0 := by
  simp [reservedQty]

theorem reservedQty_cons (it : Item) (rest : List Item) (i : Nat) :
    reservedQty (it :: rest) i
      = (if i = it.product_id then it.qty else 0) + reservedQty rest i := by
  simp only [reservedQty, List.filter_cons]
  by_cases h : it.product_id = i
  · simp [h]
  · have h2 : ¬ i = it.product_id := fun e => h e.symm
    simp [h, h2]

theorem reservedQty_append (xs ys : List Item) (i : Nat) :
    reservedQty (xs ++ ys) i = reservedQty xs i + reservedQty ys i := by
  simp [reservedQty, List.filter_append]

/-! ## Lemmas on `createOrder` -/

theorem reserveItems_committed (items : List Item) :
    ∀ (c : Conn) (t : Int) (ps : List ProcessedItem),
      (reserveItems c t ps items).1.committed = c.committed := by
  induction items with
  | nil => intro c t ps; rfl
  | cons item rest ih =>
    intro c t ps
    simp only [reserveItems]
    split
    · rfl
    · split
      · rfl
      · rw [ih]; rfl

theorem toDouble_of_safe (n : Int) (h : n.natAbs ≤ 2 ^ 53) : toDouble n = n := by
  simp only [toDouble, h, if_true]

theorem jsTotal_adjustStock (g : Nat → Int) (db : Store) (items : List Item) :
    ∀ acc, jsTotal (adjustStock g db) acc items = jsTotal db acc items := by
  induction items with
  | nil => intro acc; rfl
  | cons it rest ih => intro acc; simp only [jsTotal, priceOf_adjustStock, ih]

theorem jsTotal_of_safe (db : Store) (items : List Item) :
    ∀ acc, safeAmounts db acc items = true →
      jsTotal db acc items
        = acc + (items.map (fun it => priceOf db it.product_id * it.qty)).sum := by
  induction items with
  | nil => intro acc _; simp [jsTotal]
  | cons it rest ih =>
    intro acc h
    simp only [safeAmounts, Bool.and_eq_true, decide_eq_true_eq] at h
    obtain ⟨h1, h2, h3⟩ := h
    simp only [jsTotal, toDouble_of_safe _ h1, toDouble_of_safe _ h2, ih _ h3, List.map_cons,
      List.sum_cons]
    ring

theorem jsLineOf_of_safe (db : Store) (orderId : Nat) (items : List Item) :
    ∀ acc, safeAmounts db acc items = true →
      items.map (jsLineOf db orderId) = items.map (lineOf db orderId) := by
  induction items with
  | nil => intro acc _; rfl
  | cons it rest ih =>
    intro acc h
    simp only [safeAmounts, Bool.and_eq_true, decide_eq_true_eq] at h
    obtain ⟨h1, _, h3⟩ := h
    simp only [List.map_cons, ih _ h3, jsLineOf, lineOf, toDouble_of_safe _ h1]

theorem reserveItems_ok (items : List Item) :
    ∀ (c c1 : Conn) (t t1 : Int) (ps ps1 : List ProcessedItem),
      reserveItems c t ps items = (c1, .ok (t1, ps1)) →
        c1.work = adjustStock (reservedQty items) c.work ∧
        t1 = jsTotal c.work t items ∧
        ps1 = ps ++ items.map (fun it =>
          { product_id := it.product_id, qty := it.qty,
            unit_price_cents := priceOf c.work it.product_id,
            subtotal_cents := toDouble (priceOf c.work it.product_id * it.qty) }) := by
  induction items with
  | nil =>
    intro c c1 t t1 ps ps1 h
    simp only [reserveItems, Prod.mk.injEq, Except.ok.injEq] at h
    obtain ⟨rfl, rfl, rfl⟩ := h
    refine ⟨?_, by simp [jsTotal], by simp⟩
    have : reservedQty [] = fun _ => 0 := by funext i; exact reservedQty_nil i
    rw [this, adjustStock_zero]
  | cons item rest ih =>
    intro c c1 t t1 ps ps1 h
    simp only [reserveItems] at h
    split at h
    · simp at h
    · rename_i product hprod
      split at h
      · simp at h
      · have hprice : priceOf c.work item.product_id = product.price_cents := by
          simp [priceOf, getProduct, hprod]
        obtain ⟨hw, ht, hps⟩ := ih _ _ _ _ _ _ h
        have hwork : (c.execute (deductStock item.qty item.product_id)).work
            = adjustStock (fun i => if i = item.product_id then item.qty else 0) c.work := by
          simp [Conn.execute, deductStock_eq_adjustStock]
        rw [hwork] at hw ht hps
        refine ⟨?_, ?_, ?_⟩
        · rw [hw, adjustStock_adjustStock]
          congr 1
          funext i
          rw [reservedQty_cons]
        · rw [ht, jsTotal_adjustStock]
          simp only [jsTotal, hprice]
        · rw [hps]
          simp only [priceOf_adjustStock, List.map_cons, hprice, List.append_assoc,
            List.singleton_append]

theorem insertItems_spec (orderId : Nat) (ps : List ProcessedItem) :
    ∀ c : Conn,
      (insertItems orderId c ps).committed = c.committed ∧
      (insertItems orderId c ps).work.products = c.work.products ∧
      (insertItems orderId c ps).work.orders = c.work.orders ∧
      (insertItems orderId c ps).work.idempotency_keys = c.work.idempotency_keys ∧
      ∃ lines, (insertItems orderId c ps).work.order_items = c.work.order_items ++ lines ∧
        lines.map OrderItem.columns = ps.map (fun it =>
          (orderId, it.product_id, it.qty, it.unit_price_cents, it.subtotal_cents)) := by
  induction ps with
  | nil => intro c; exact ⟨rfl, rfl, rfl, rfl, [], by simp [insertItems], rfl⟩
  | cons item rest ih =>
    intro c
    obtain ⟨h1, h2, h3, h4, lines, h5, h6⟩ := ih (c.execute (insertOrderItem orderId item))
    simp only [insertItems]
    refine ⟨h1, h2, h3, h4, ?_⟩
    refine ⟨{ id := nextId (c.work.order_items.map (fun l => l.id)), order_id := orderId,
              product_id := item.product_id, qty := item.qty,
              unit_price_cents := item.unit_price_cents,
              subtotal_cents := item.subtotal_cents } :: lines, ?_, ?_⟩
    · rw [h5]
      simp only [Conn.execute, insertOrderItem, List.append_assoc, List.singleton_append]
    · simp [h6, OrderItem.columns]

theorem le_foldr_max (ids : List Nat) : ∀ i ∈ ids, i ≤ ids.foldr max 0 := by
  induction ids with
  | nil => intro i h; cases h
  | cons a rest ih =>
    intro i h
    simp only [List.foldr_cons]
    rcases List.mem_cons.1 h with rfl | h
    · exact le_max_left _ _
    · exact le_trans (ih i h) (le_max_right _ _)

theorem nextId_fresh (ids : List Nat) : ∀ i ∈ ids, i ≠ nextId ids := by
  intro i h e
  have := le_foldr_max ids i h
  simp only [nextId] at e
  omega

theorem reserveItems_errorOf (db : Store) (items : List Item) :
    ∀ (c : Conn) (t : Int) (ps : List ProcessedItem) (earlier : List Item),
      c.work = adjustStock (reservedQty earlier) db →
        errorOf (reserveItems c t ps items).2 = firstFailure db earlier items := by
  induction items with
  | nil => intro c t ps earlier _; rfl
  | cons item rest ih =>
    intro c t ps earlier hc
    have hget : (selectProduct c.work item.product_id).head?
        = (getProduct db item.product_id).map
            (fun p => { p with stock := p.stock - reservedQty earlier item.product_id }) := by
      rw [hc]; exact getProduct_adjustStock _ _ _
    simp only [reserveItems, firstFailure, hget]
    cases hdb : getProduct db item.product_id with
    | none => rfl
    | some product =>
      simp only [Option.map_some']
      by_cases hlt : product.stock - reservedQty earlier item.product_id < item.qty
      · simp [hlt, errorOf]
      · simp only [hlt, if_false]
        apply ih
        simp only [Conn.execute, hc, deductStock_eq_adjustStock, adjustStock_adjustStock]
        congr 1
        funext i
        rw [reservedQty_append, reservedQty_cons, reservedQty_nil, add_zero]

theorem createOrder_errorOf (db : Store) (customerId : Nat) (items : List Item) (now : Nat) :
    errorOf (createOrder db customerId items now).2 = firstFailure db [] items := by
  have h := reserveItems_errorOf db items (beginTransaction db) 0 [] [] (by
    have : reservedQty [] = fun _ => 0 := by funext i; exact reservedQty_nil i
    rw [this, adjustStock_zero]; rfl)
  rw [← h]
  simp only [createOrder]
  generalize reserveItems (beginTransaction db) 0 [] items = r
  obtain ⟨c, res⟩ := r
  cases res <;> rfl

/-! ## C1 -/

/-- C1, as the claim states it, fails: `createOrder` for 94906267 units of a product priced
94906267 succeeds, the exact `price × qty` is 9007199515875289, and the order is persisted
with `total_cents` 9007199515875288 and its line with that `subtotal_cents`, the product as
JavaScript rounds it. -/
theorem createOrder_total_rounded :
    (createOrder bigStore 1 [⟨10, 94906267⟩] 7).2 = .ok 1 ∧
    ([(⟨10, 94906267⟩ : Item)].map (fun it => priceOf bigStore it.product_id * it.qty)).sum
      = 9007199515875289 ∧
    (createOrder bigStore 1 [⟨10, 94906267⟩] 7).1.orders.map (fun o => (o.id, o.total_cents))
      = [(1, 9007199515875288)] ∧
    (createOrder bigStore 1 [⟨10, 94906267⟩] 7).1.order_items.map
        (fun l => (l.unit_price_cents, l.qty, l.subtotal_cents))
      = [(94906267, 94906267, 9007199515875288)] := by
  decide

/-- C1, amended. Let every `price × qty` of the items and every running sum of them be at most
2^53 in absolute value.  Whenever `createOrder` succeeds with order id `orderId`: that id was
not in use and the orders table gains exactly one row, with that id, status CREATED and
`total_cents = Σ price × qty` over the items, the price being the product's `price_cents` in
the store the call started from (reservations never change a price, so this is the price read
at reservation time); the `order_items` table gains one line per item, in request order, for
that order, with `unit_price_cents` that price and `subtotal_cents = unit_price_cents × qty`;
every product row has its stock lowered by the total qty of the items that reference its id
(by 0 when none does); the idempotency table is untouched. -/
theorem createOrder_success (db : Store) (customerId : Nat) (items : List Item)
    (now orderId : Nat) (hsafe : safeAmounts db 0 items = true)
    (h : (createOrder db customerId items now).2 = .ok orderId) :
    (∀ o ∈ db.orders, o.id ≠ orderId) ∧
    (createOrder db customerId items now).1.orders = db.orders ++
      [{ id := orderId, customer_id := customerId, status := "CREATED",
         total_cents := (items.map (fun it => priceOf db it.product_id * it.qty)).sum,
         created_at := now, updated_at := now, confirmed_at := none, canceled_at := none }] ∧
    (∃ lines, (createOrder db customerId items now).1.order_items = db.order_items ++ lines ∧
      lines.map OrderItem.columns = items.map (lineOf db orderId)) ∧
    (createOrder db customerId items now).1.products
      = db.products.map (fun p => { p with stock := p.stock - reservedQty items p.id }) ∧
    (createOrder db customerId items now).1.idempotency_keys = db.idempotency_keys := by
  simp only [createOrder] at h ⊢
  generalize hr : reserveItems (beginTransaction db) 0 [] items = r at h ⊢
  obtain ⟨c, res⟩ := r
  cases res with
  | error e => simp at h
  | ok v =>
    obtain ⟨t, ps⟩ := v
    obtain ⟨hw, ht, hps⟩ := reserveItems_ok items _ _ _ _ _ _ hr
    simp only [beginTransaction] at hw ht hps
    rw [jsTotal_of_safe db items 0 hsafe] at ht
    simp only [Except.ok.injEq] at h
    have hord : c.work.orders = db.orders := by rw [hw]; rfl
    obtain ⟨_, i2, i3, i4, lines, i5, i6⟩ := insertItems_spec
      (nextId (c.work.orders.map (fun o => o.id))) ps
      (c.execute (insertOrder customerId "CREATED" t now))
    simp only [Conn.commit]
    rw [hord] at h
    refine ⟨?_, ?_, ⟨lines, ?_, ?_⟩, ?_, ?_⟩
    · intro o ho
      rw [← h]
      exact nextId_fresh _ _ (List.mem_map_of_mem _ ho)
    · rw [i3]
      simp only [Conn.execute, insertOrder, hord, h, ht, zero_add]
    · rw [i5]
      simp only [Conn.execute, insertOrder, hw, adjustStock]
    · rw [i6, hps, hord, h, ← jsLineOf_of_safe db orderId items 0 hsafe]
      simp [jsLineOf]
    · rw [i2]
      simp only [Conn.execute, insertOrder, hw, adjustStock]
    · rw [i4]
      simp only [Conn.execute, insertOrder, hw, adjustStock]

/-- Witness of C1 amended: the scenario of the specification (product 10, stock 5, price 1000,
two units ordered). -/
theorem createOrder_success_witness :
    safeAmounts scn0 0 [⟨10, 2⟩] = true ∧
    (createOrder scn0 1 [⟨10, 2⟩] 7).2 = .ok 1 ∧
    (createOrder scn0 1 [⟨10, 2⟩] 7).1.orders = scn0.orders ++
      [{ id := 1, customer_id := 1, status := "CREATED",
         total_cents := ([(⟨10, 2⟩ : Item)].map (fun it => priceOf scn0 it.product_id * it.qty)).sum,
         created_at := 7, updated_at := 7, confirmed_at := none, canceled_at := none }] ∧
    (createOrder scn0 1 [⟨10, 2⟩] 7).1
      = { products := [⟨10, "SKU-10", "Widget", 1000, 3⟩],
          orders := [⟨1, 1, "CREATED", 2000, 7, 7, none, none⟩],
          order_items := [⟨1, 1, 10, 2, 1000, 2000⟩],
          idempotency_keys := [] } :=
  ⟨by decide, by decide,
   (createOrder_success scn0 1 [⟨10, 2⟩] 7 1 (by decide) (by decide)).2.1,
   by decide⟩

/-! ## C2 -/

/-- C2. `createOrder` is all-or-nothing: whenever it throws, whatever the item at which it
throws, the committed store after the call is the store before it, although the working copy
of the transaction may by then hold the reservations of the earlier items. -/
theorem createOrder_failure_atomic (db : Store) (customerId : Nat) (items : List Item)
    (now : Nat) (e : Err) (h : (createOrder db customerId items now).2 = .error e) :
    (createOrder db customerId items now).1 = db := by
  have hc := reserveItems_committed items (beginTransaction db) 0 []
  simp only [createOrder] at h ⊢
  generalize reserveItems (beginTransaction db) 0 [] items = r at h hc ⊢
  obtain ⟨c, res⟩ := r
  cases res with
  | error e => simpa [Conn.rollback, beginTransaction] using hc
  | ok v => simp at h

/-- Witness of C2: the second item fails after the first has reserved two units. -/
theorem createOrder_failure_atomic_witness :
    (createOrder scn0 1 [⟨10, 2⟩, ⟨10, 4⟩] 7).2 = .error (.insufficientStock 10) ∧
    (reserveItems (beginTransaction scn0) 0 [] [⟨10, 2⟩, ⟨10, 4⟩]).1.work ≠ scn0 ∧
    (createOrder scn0 1 [⟨10, 2⟩, ⟨10, 4⟩] 7).1 = scn0 :=
  ⟨by decide, by decide,
    createOrder_failure_atomic scn0 1 [⟨10, 2⟩, ⟨10, 4⟩] 7 (.insufficientStock 10) (by decide)⟩

/-! ## C3 -/

/-- C3. `createOrder` throws error `e` exactly when `e` is the error of the first item, in
request order, whose product has no row (`Product <id> not found`) or has strictly fewer units
left, after the reservations of the earlier items of the call, than the item asks for
(`Insufficient stock for product <id>`); it succeeds exactly when there is no such item; and
an item asking for exactly the stock of its product is reserved. -/
theorem createOrder_fails_iff (db : Store) (customerId : Nat) (items : List Item) (now : Nat) :
    (∀ e, (createOrder db customerId items now).2 = .error e ↔
      firstFailure db [] items = some e) ∧
    ((∃ orderId, (createOrder db customerId items now).2 = .ok orderId) ↔
      firstFailure db [] items = none) ∧
    (∀ product_id product, getProduct db product_id = some product →
      ∃ orderId, (createOrder db customerId [⟨product_id, product.stock⟩] now).2
        = .ok orderId) := by
  refine ⟨?_, ?_, ?_⟩
  · intro e
    rw [← createOrder_errorOf db customerId items now]
    cases (createOrder db customerId items now).2 <;> simp [errorOf]
  · rw [← createOrder_errorOf db customerId items now]
    cases (createOrder db customerId items now).2 <;> simp [errorOf]
  · intro product_id product hp
    have h := createOrder_errorOf db customerId [⟨product_id, product.stock⟩] now
    simp [firstFailure, hp, reservedQty_nil] at h
    cases hr : (createOrder db customerId [⟨product_id, product.stock⟩] now).2 with
    | error e => rw [hr] at h; simp [errorOf] at h
    | ok orderId => exact ⟨orderId, rfl⟩

/-- Witness of C3: exact stock succeeds, the first failing item decides the error. -/
theorem createOrder_fails_iff_witness :
    (createOrder scn0 1 [⟨10, 5⟩] 7).2 = .ok 1 ∧
    (createOrder scn0 1 [⟨10, 2⟩, ⟨10, 4⟩, ⟨11, 1⟩] 7).2 = .error (.insufficientStock 10) ∧
    (Err.insufficientStock 10).message = "Insufficient stock for product 10" ∧
    (createOrder scn0 1 [⟨11, 1⟩, ⟨10, 6⟩] 7).2 = .error (.productNotFound 11) ∧
    (Err.productNotFound 11).message = "Product 11 not found" :=
  ⟨by decide,
   ((createOrder_fails_iff scn0 1 [⟨10, 2⟩, ⟨10, 4⟩, ⟨11, 1⟩] 7).1 _).2 (by decide),
   by decide,
   ((createOrder_fails_iff scn0 1 [⟨11, 1⟩, ⟨10, 6⟩] 7).1 _).2 (by decide),
   by decide⟩

/-! ## Lemmas on stock -/

theorem stockNonneg_of_products (a b : Store) (h : a.products = b.products)
    (ha : StockNonneg a) : StockNonneg b := by
  intro i p hp
  apply ha i p
  simpa [getProduct, selectProduct, h] using hp

theorem stockNonneg_of_forall (db : Store) (h : ∀ p ∈ db.products, 0 ≤ p.stock) :
    StockNonneg db := by
  intro i p hp
  apply h
  simp only [getProduct, selectProduct] at hp
  exact (List.mem_filter.1 (List.mem_of_mem_head? hp)).1

theorem head?_filter_of_nodup (l : List Product) (p : Product)
    (hn : (l.map (fun q => q.id)).Nodup) (hp : p ∈ l) :
    (l.filter (fun q => q.id = p.id)).head? = some p := by
  induction l with
  | nil => cases hp
  | cons a rest ih =>
    simp only [List.map_cons, List.nodup_cons] at hn
    rcases List.mem_cons.1 hp with rfl | hmem
    · simp
    · have hne : ¬ a.id = p.id := by
        intro e
        apply hn.1
        rw [e]
        exact List.mem_map_of_mem (fun q => q.id) hmem
      simp only [List.filter_cons, hne, decide_False]
      exact ih hn.2 hmem

theorem stockNonneg_iff_forall (db : Store) (hn : (db.products.map (fun q => q.id)).Nodup) :
    StockNonneg db ↔ ∀ p ∈ db.products, 0 ≤ p.stock :=
  ⟨fun h p hp => h p.id p (head?_filter_of_nodup db.products p hn hp),
   stockNonneg_of_forall db⟩

theorem restoreStock_eq_adjustStock (qty : Int) (product_id : Nat) (db : Store) :
    restoreStock qty product_id db
      = adjustStock (fun i => if i = product_id then -qty else 0) db := by
  simp only [restoreStock, adjustStock]
  congr 1
  apply List.map_congr_left
  intro p _
  split <;> simp

theorem stockNonneg_adjustStock (g : Nat → Int) (db : Store)
    (hg : ∀ i p, getProduct db i = some p → g i ≤ p.stock) :
    StockNonneg (adjustStock g db) := by
  intro i p hp
  rw [getProduct_adjustStock] at hp
  cases hq : getProduct db i with
  | none => simp [hq] at hp
  | some q =>
    simp only [hq, Option.map_some', Option.some.injEq] at hp
    have := hg i q hq
    rw [← hp]
    simp only
    omega

theorem reserveItems_stockNonneg (items : List Item) :
    ∀ (c : Conn) (t : Int) (ps : List ProcessedItem),
      StockNonneg c.work → StockNonneg (reserveItems c t ps items).1.work := by
  induction items with
  | nil => intro c t ps h; exact h
  | cons item rest ih =>
    intro c t ps h
    simp only [reserveItems]
    split
    · exact h
    · rename_i product hprod
      split
      · exact h
      · rename_i hlt
        apply ih
        simp only [Conn.execute, deductStock_eq_adjustStock]
        apply stockNonneg_adjustStock
        intro i p hp
        split
        · rename_i hi
          subst hi
          have : p = product := by
            simp only [getProduct] at hp
            rw [hprod] at hp
            exact (Option.some.inj hp).symm
          rw [this]
          omega
        · exact h i p hp

theorem reserveItems_append (xs ys : List Item) :
    ∀ (c c1 : Conn) (t t1 : Int) (ps ps1 : List ProcessedItem),
      reserveItems c t ps xs = (c1, .ok (t1, ps1)) →
        reserveItems c t ps (xs ++ ys) = reserveItems c1 t1 ps1 ys := by
  induction xs with
  | nil =>
    intro c c1 t t1 ps ps1 h
    simp only [reserveItems, Prod.mk.injEq, Except.ok.injEq] at h
    obtain ⟨rfl, rfl, rfl⟩ := h
    rfl
  | cons item rest ih =>
    intro c c1 t t1 ps ps1 h
    simp only [reserveItems, List.cons_append] at h ⊢
    split at h
    · simp at h
    · rename_i product hprod
      try simp only [hprod]
      split at h
      · simp at h
      · rename_i hlt
        simp only [hlt, if_false]
        exact ih _ _ _ _ _ _ h

theorem createOrder_products (db : Store) (customerId : Nat) (items : List Item) (now : Nat) :
    (createOrder db customerId items now).1 = db ∨
    (createOrder db customerId items now).1.products
      = (reserveItems (beginTransaction db) 0 [] items).1.work.products := by
  simp only [createOrder]
  have hc := reserveItems_committed items (beginTransaction db) 0 []
  generalize reserveItems (beginTransaction db) 0 [] items = r at hc ⊢
  obtain ⟨c, res⟩ := r
  cases res with
  | error e => left; simpa [Conn.rollback, beginTransaction] using hc
  | ok v =>
    right
    obtain ⟨_, i2, _⟩ := insertItems_spec (nextId (c.work.orders.map (fun o => o.id))) v.2
      (c.execute (insertOrder customerId "CREATED" v.1 now))
    simp only [Conn.commit]
    rw [i2]
    rfl

theorem confirmLocked_products (db : Store) (orderId : Nat) (k : Option String) (now : Nat) :
    (confirmLocked (beginTransaction db) orderId k now).1.products = db.products := by
  simp only [confirmLocked, beginTransaction]
  split
  · rfl
  · split
    · rfl
    · split
      · rfl
      · cases suppliedKey k <;> rfl

theorem confirmOrder_products (db : Store) (orderId : Nat) (k : Option String) (now : Nat) :
    (confirmOrder db orderId k now).1.products = db.products := by
  simp only [confirmOrder]
  split
  · split
    · rfl
    · exact confirmLocked_products db orderId k now
  · exact confirmLocked_products db orderId k now

theorem restoreItems_stockNonneg (lines : List OrderItem) :
    ∀ c : Conn, (∀ l ∈ lines, 0 ≤ l.qty) → StockNonneg c.work →
      StockNonneg (restoreItems c lines).work := by
  induction lines with
  | nil => intro c _ h; exact h
  | cons l rest ih =>
    intro c hq h
    simp only [restoreItems]
    apply ih _ (fun x hx => hq x (List.mem_cons_of_mem _ hx))
    simp only [Conn.execute, restoreStock_eq_adjustStock]
    apply stockNonneg_adjustStock
    intro i p hp
    have h1 := h i p hp
    have h2 := hq l (List.mem_cons_self _ _)
    split <;> omega

theorem cancelOrder_products (db : Store) (orderId : Nat) (now : Nat) :
    (cancelOrder db orderId now).1 = db ∨
    (cancelOrder db orderId now).1.products
      = (restoreItems (beginTransaction db) (selectOrderItems db orderId)).work.products := by
  simp only [cancelOrder, beginTransaction]
  split
  · left; rfl
  · split
    · left; rfl
    · split
      · left; rfl
      · right; rfl

/-! ## C4 -/

/-- C4, as the claim states it, fails: in a store reached by two `createOrder` calls every
product has stock ≥ 0, and `cancelOrder` leaves product 1 with stock -5. -/
theorem stock_negative_after_cancel :
    StockNonneg c4Reached ∧ ¬ StockNonneg (cancelOrder c4Reached 1 0).1 := by
  constructor
  · apply stockNonneg_of_forall
    decide
  · intro h
    have := h 1 ⟨1, "SKU-1", "Bolt", 100, -5⟩ (by decide)
    exact absurd this (by decide)

/-- C4, amended. In a store where every product has stock ≥ 0: `createOrder`, with any
arguments, succeeding or failing, leaves every product with stock ≥ 0, and so does every
state its reservation loop passes through (the working copy after each reserved run of leading
items, from which the loop goes on); `confirmOrder` leaves every product with stock ≥ 0; and
`cancelOrder` does so when the persisted lines of the order have qty ≥ 0. -/
theorem stock_never_negative (db : Store) (h : StockNonneg db) :
    (∀ customerId items now,
      StockNonneg (createOrder db customerId items now).1 ∧
      ∀ done rest c t ps, items = done ++ rest →
        reserveItems (beginTransaction db) 0 [] done = (c, .ok (t, ps)) →
          StockNonneg c.work ∧
          reserveItems (beginTransaction db) 0 [] items = reserveItems c t ps rest) ∧
    (∀ orderId idempotencyKey now,
      StockNonneg (confirmOrder db orderId idempotencyKey now).1) ∧
    (∀ orderId now, (∀ l ∈ selectOrderItems db orderId, 0 ≤ l.qty) →
      StockNonneg (cancelOrder db orderId now).1) := by
  refine ⟨?_, ?_, ?_⟩
  · intro customerId items now
    constructor
    · rcases createOrder_products db customerId items now with e | e
      · rw [e]; exact h
      · exact stockNonneg_of_products _ _ e.symm
          (reserveItems_stockNonneg items (beginTransaction db) 0 [] h)
    · intro done rest c t ps hsplit hdone
      constructor
      · have := reserveItems_stockNonneg done (beginTransaction db) 0 [] h
        rw [hdone] at this
        exact this
      · rw [hsplit]
        exact reserveItems_append done rest _ _ _ _ _ _ hdone
  · intro orderId k now
    exact stockNonneg_of_products _ _ (confirmOrder_products db orderId k now).symm h
  · intro orderId now hq
    rcases cancelOrder_products db orderId now with e | e
    · rw [e]; exact h
    · exact stockNonneg_of_products _ _ e.symm
        (restoreItems_stockNonneg _ (beginTransaction db) hq h)

/-- Witness of C4 amended, on the scenario store after order 1 was created: a further
`createOrder` and the cancellation of order 1, whose one line has qty 2. -/
theorem stock_never_negative_witness :
    StockNonneg scn1 ∧ (∀ l ∈ selectOrderItems scn1 1, 0 ≤ l.qty) ∧
    StockNonneg (createOrder scn1 1 [⟨10, 2⟩, ⟨10, 4⟩] 7).1 ∧
    StockNonneg (cancelOrder scn1 1 8).1 :=
  ⟨stockNonneg_of_forall scn1 (by decide), by decide,
   ((stock_never_negative scn1 (stockNonneg_of_forall scn1 (by decide))).1
      1 [⟨10, 2⟩, ⟨10, 4⟩] 7).1,
   (stock_never_negative scn1 (stockNonneg_of_forall scn1 (by decide))).2.2 1 8 (by decide)⟩

/-! ## Lemmas on `confirmOrder` -/

theorem suppliedKey_some (key : String) (hk : key ≠ "") : suppliedKey (some key) = some key := by
  simp [suppliedKey, hk]

theorem confirmOrder_cached (db : Store) (orderId : Nat) (key : String) (now : Nat)
    (cachedKey : IdempotencyKey) (rest : List IdempotencyKey) (hk : key ≠ "")
    (h : selectKey db key = cachedKey :: rest) :
    confirmOrder db orderId (some key) now = (db, .ok (JSON.parse cachedKey.response_body)) := by
  simp only [confirmOrder, suppliedKey_some key hk, beginTransaction, h, Conn.rollback]

theorem confirmOrder_not_cached (db : Store) (orderId : Nat) (k : Option String) (now : Nat)
    (hk : ∀ key, suppliedKey k = some key → selectKey db key = []) :
    confirmOrder db orderId k now = confirmLocked (beginTransaction db) orderId k now := by
  simp only [confirmOrder]
  cases hs : suppliedKey k with
  | none => rfl
  | some key =>
    have := hk key hs
    simp only [beginTransaction] at this ⊢
    simp only [this]

theorem getOrderById_of_select (db : Store) (orderId : Nat) (order : Order) (rest : List Order)
    (h : selectOrder db orderId = order :: rest) :
    getOrderById db orderId = some
      { id := order.id, customer_id := order.customer_id, status := order.status,
        total_cents := order.total_cents, created_at := order.created_at,
        updated_at := order.updated_at, confirmed_at := order.confirmed_at,
        canceled_at := order.canceled_at, items := selectItemRows db orderId } := by
  simp only [getOrderById, h]

theorem confirmLocked_transition (db : Store) (orderId : Nat) (k : Option String) (now : Nat)
    (order : Order) (rest : List Order) (h : selectOrder db orderId = order :: rest)
    (h1 : order.status ≠ "CONFIRMED") (h2 : order.status ≠ "CANCELED") :
    confirmLocked (beginTransaction db) orderId k now =
      ((match suppliedKey k with
        | some key => insertKey
            { key := key, target_type := "order_confirmation", target_id := orderId,
              status := "completed", response_body := JSON.stringify (getOrderById db orderId),
              expires_at := expiresAt now } (updateOrderConfirmed "CONFIRMED" orderId now db)
        | none => updateOrderConfirmed "CONFIRMED" orderId now db),
       .ok (getOrderById db orderId)) := by
  simp only [confirmLocked, beginTransaction, h, h1, h2, if_false, Conn.execute, Conn.commit]
  cases suppliedKey k <;> rfl

/-! ## C5 -/

theorem selectOrder_updateOrderConfirmed (status : String) (orderId now : Nat) (db : Store) :
    selectOrder (updateOrderConfirmed status orderId now db) orderId
      = (selectOrder db orderId).map (fun o =>
          { o with status := status, confirmed_at := some now, updated_at := now }) := by
  simp only [selectOrder, updateOrderConfirmed, List.filter_map]
  have : ((fun o : Order => decide (o.id = orderId)) ∘ fun o =>
      if o.id = orderId then
        { o with status := status, confirmed_at := some now, updated_at := now } else o)
      = fun o : Order => decide (o.id = orderId) := by
    funext o
    by_cases ho : o.id = orderId <;> simp [ho]
  rw [this]
  apply List.map_congr_left
  intro o ho
  have := (List.mem_filter.1 ho).2
  simp at this
  simp [this]

/-- C5, what the code does. When order `orderId` is CREATED and the key is absent, empty or
has no record, `confirmOrder` succeeds; the stored order becomes CONFIRMED with
`confirmed_at = now`; the idempotency table gains one record exactly when a key was supplied,
for that key and target `orderId`, with the returned result as payload and an expiry 24 hours
after `now`; products and order lines are untouched.  But the returned order is what
`getOrderById` reads on the pool before the commit, the row as last committed: its status is
CREATED, not CONFIRMED, and its `confirmed_at` is the old one. -/
theorem confirmOrder_created_returns_stale (db : Store) (orderId : Nat) (k : Option String)
    (now : Nat) (order : Order) (rest : List Order)
    (hsel : selectOrder db orderId = order :: rest) (hst : order.status = "CREATED")
    (hk : ∀ key, suppliedKey k = some key → selectKey db key = []) :
    (confirmOrder db orderId k now).2 = .ok (getOrderById db orderId) ∧
    (∃ view, getOrderById db orderId = some view ∧ view.status = "CREATED" ∧
      view.status ≠ "CONFIRMED" ∧ view.confirmed_at = order.confirmed_at) ∧
    (selectOrder (confirmOrder db orderId k now).1 orderId).head?
      = some { order with status := "CONFIRMED", confirmed_at := some now,
                          updated_at := now } ∧
    (confirmOrder db orderId k now).1.idempotency_keys = db.idempotency_keys ++
      (match suppliedKey k with
        | some key =>
          [{ key := key, target_type := "order_confirmation", target_id := orderId,
             status := "completed", response_body := JSON.stringify (getOrderById db orderId),
             expires_at := now + 24 * 60 * 60 * 1000 }]
        | none => []) ∧
    (confirmOrder db orderId k now).1.products = db.products ∧
    (confirmOrder db orderId k now).1.order_items = db.order_items := by
  have h1 : order.status ≠ "CONFIRMED" := by rw [hst]; decide
  have h2 : order.status ≠ "CANCELED" := by rw [hst]; decide
  have hc : confirmOrder db orderId k now = _ :=
    (confirmOrder_not_cached db orderId k now hk).trans
      (confirmLocked_transition db orderId k now order rest hsel h1 h2)
  have hupd := selectOrder_updateOrderConfirmed "CONFIRMED" orderId now db
  rw [hsel] at hupd
  rw [hc]
  refine ⟨rfl, ⟨_, getOrderById_of_select db orderId order rest hsel, hst, h1, rfl⟩, ?_, ?_,
    ?_, ?_⟩
  · cases suppliedKey k with
    | none => simp only [hupd]; rfl
    | some key =>
      have : ∀ row, selectOrder (insertKey row (updateOrderConfirmed "CONFIRMED" orderId now db))
          orderId = selectOrder (updateOrderConfirmed "CONFIRMED" orderId now db) orderId :=
        fun _ => rfl
      simp only [this, hupd]; rfl
  · cases suppliedKey k with
    | none => simp [updateOrderConfirmed]
    | some key => simp [updateOrderConfirmed, insertKey, expiresAt]
  · cases suppliedKey k <;> rfl
  · cases suppliedKey k <;> rfl

/-- C5 on the scenario store, where order 1 is CREATED and key "abc" has no record:
`confirmOrder(1, "abc")` returns the order with status CREATED and no `confirmed_at`, while
the stored order is CONFIRMED and the payload recorded under "abc" is that stale order. -/
theorem confirmOrder_created_returns_stale_witness :
    selectOrder scn1 1 = [⟨1, 1, "CREATED", 2000, 7, 7, none, none⟩] ∧
    selectKey scn1 "abc" = [] ∧
    (confirmOrder scn1 1 (some "abc") 9).2 = .ok (getOrderById scn1 1) ∧
    (getOrderById scn1 1).map (fun v => (v.status, v.confirmed_at)) = some ("CREATED", none) ∧
    (confirmOrder scn1 1 (some "abc") 9).1.orders.map (fun o => (o.id, o.status, o.confirmed_at))
      = [(1, "CONFIRMED", some 9)] ∧
    (confirmOrder scn1 1 (some "abc") 9).1.idempotency_keys
      = [abcRecord (getOrderById scn1 1)] :=
  ⟨by decide, by decide,
   (confirmOrder_created_returns_stale scn1 1 (some "abc") 9
      ⟨1, 1, "CREATED", 2000, 7, 7, none, none⟩ [] (by decide) (by decide)
      (by
        intro key h
        have : key = "abc" := by
          simp only [suppliedKey] at h
          split at h
          · cases h
          · exact (Option.some.inj h).symm
        rw [this]
        decide)).1,
   by decide, by decide, by decide⟩

/-! ## C6 -/

theorem itemRows_of_single (db : Store) (lines : List OrderItem)
    (h : ∀ l ∈ lines, ∃ p, db.products.filter (fun q => q.id = l.product_id) = [p]) :
    (lines.flatMap (fun l =>
        (db.products.filter (fun q => q.id = l.product_id)).map (fun p =>
          ItemRow.mk l.id l.product_id l.qty l.unit_price_cents l.subtotal_cents
            p.name p.sku))).map
        (fun r => (r.id, r.product_id, r.qty, r.unit_price_cents, r.subtotal_cents))
      = lines.map (fun l => (l.id, l.product_id, l.qty, l.unit_price_cents, l.subtotal_cents)) := by
  induction lines with
  | nil => rfl
  | cons l rest ih =>
    obtain ⟨p, hp⟩ := h l (List.mem_cons_self _ _)
    have ih2 := ih (fun x hx => h x (List.mem_cons_of_mem _ hx))
    simp only [List.flatMap_cons, List.map_append, List.map_cons, hp, List.map_nil, ih2,
      List.singleton_append]

/-- C6. When order `orderId` is CONFIRMED and the key is absent, empty or has no record,
`confirmOrder` succeeds and leaves the whole store as it was.  The order it returns carries
the columns of the stored order row (status CONFIRMED, the `confirmed_at` already stored) and,
as items, the persisted lines of the order, in table order, each joined with the rows of its
product for name and sku; when every line of the order references a product that has exactly
one row (no call deletes a product, and lines are only created for products that exist),
these are exactly the lines of the order, one item per line with the line's id, product, qty,
unit price and subtotal. -/
theorem confirmOrder_confirmed_noop (db : Store) (orderId : Nat) (k : Option String)
    (now : Nat) (order : Order) (rest : List Order)
    (hsel : selectOrder db orderId = order :: rest) (hst : order.status = "CONFIRMED")
    (hk : ∀ key, suppliedKey k = some key → selectKey db key = []) :
    confirmOrder db orderId k now = (db, .ok (getOrderById db orderId)) ∧
    ∃ view, (confirmOrder db orderId k now).2 = .ok (some view) ∧
      getOrderById db orderId = some view ∧ view.status = "CONFIRMED" ∧
      view.confirmed_at = order.confirmed_at ∧ view.total_cents = order.total_cents ∧
      view.id = order.id ∧ view.customer_id = order.customer_id ∧
      view.created_at = order.created_at ∧ view.updated_at = order.updated_at ∧
      view.canceled_at = order.canceled_at ∧
      view.items = (db.order_items.filter (fun l => l.order_id = orderId)).flatMap (fun l =>
        (db.products.filter (fun q => q.id = l.product_id)).map (fun p =>
          ItemRow.mk l.id l.product_id l.qty l.unit_price_cents l.subtotal_cents
            p.name p.sku)) ∧
      ((∀ l ∈ db.order_items.filter (fun l => l.order_id = orderId),
          ∃ p, db.products.filter (fun q => q.id = l.product_id) = [p]) →
        view.items.map
            (fun r => (r.id, r.product_id, r.qty, r.unit_price_cents, r.subtotal_cents))
          = (db.order_items.filter (fun l => l.order_id = orderId)).map
              (fun l => (l.id, l.product_id, l.qty, l.unit_price_cents, l.subtotal_cents))) := by
  have hc : confirmOrder db orderId k now = (db, .ok (getOrderById db orderId)) := by
    rw [confirmOrder_not_cached db orderId k now hk]
    simp only [confirmLocked, beginTransaction, hsel, hst, if_true, Conn.commit]
  have hv := getOrderById_of_select db orderId order rest hsel
  refine ⟨hc, _, by rw [hc, hv], hv, hst, rfl, rfl, rfl, rfl, rfl, rfl, rfl, rfl, ?_⟩
  intro h
  exact itemRows_of_single db _ h

/-! ## C7 -/

/-- C7, as the claim states it, fails for a key that was used before: order 1 of `c7Store` is
CANCELED, and `confirmOrder(1, "abc")` returns the payload recorded under "abc" instead of
throwing. -/
theorem confirmOrder_canceled_replays :
    (getOrderById c7Store 1).map (fun v => v.status) = some "CANCELED" ∧
    errorOf (confirmOrder c7Store 1 (some "abc") 20).2 = none ∧
    (confirmOrder c7Store 1 (some "abc") 20).2
      = .ok ((selectKey c7Store "abc").head?.bind (fun r => JSON.parse r.response_body)) := by
  decide

/-- C7, amended. When order `orderId` is CANCELED and the key is absent, empty or has no
record, `confirmOrder` throws `Cannot confirm a canceled order` and leaves the store as it
was. -/
theorem confirmOrder_canceled_fails (db : Store) (orderId : Nat) (k : Option String)
    (now : Nat) (order : Order) (rest : List Order)
    (hsel : selectOrder db orderId = order :: rest) (hst : order.status = "CANCELED")
    (hk : ∀ key, suppliedKey k = some key → selectKey db key = []) :
    confirmOrder db orderId k now = (db, .error .cannotConfirmCanceled) ∧
    Err.cannotConfirmCanceled.message = "Cannot confirm a canceled order" := by
  constructor
  · rw [confirmOrder_not_cached db orderId k now hk]
    simp only [confirmLocked, beginTransaction, hsel, hst, if_true, Conn.rollback]
    exact if_neg (by decide)
  · rfl

/-- Witness of C6: order 1 of `scn2` is CONFIRMED; confirming it again, without a key, changes
nothing. -/
theorem confirmOrder_confirmed_noop_witness :
    selectOrder scn2 1 = [⟨1, 1, "CONFIRMED", 2000, 7, 9, some 9, none⟩] ∧
    scn2.order_items = [⟨1, 1, 10, 2, 1000, 2000⟩] ∧
    confirmOrder scn2 1 none 30 = (scn2, .ok (getOrderById scn2 1)) ∧
    (confirmOrder scn2 1 none 30).2
      = .ok (some ⟨1, 1, "CONFIRMED", 2000, 7, 9, some 9, none,
          [⟨1, 10, 2, 1000, 2000, "Widget", "SKU-10"⟩]⟩) :=
  ⟨by decide, by decide,
   (confirmOrder_confirmed_noop scn2 1 none 30 ⟨1, 1, "CONFIRMED", 2000, 7, 9, some 9, none⟩ []
      (by decide) (by decide) (by intro key h; cases h)).1,
   by decide⟩

/-- Witness of C7 amended: order 1 of `c7Store` is CANCELED; confirming it under the unused key
"xyz" throws. -/
theorem confirmOrder_canceled_fails_witness :
    selectOrder c7Store 1 = [⟨1, 1, "CANCELED", 2000, 7, 12, some 9, some 12⟩] ∧
    selectKey c7Store "xyz" = [] ∧
    confirmOrder c7Store 1 (some "xyz") 20 = (c7Store, .error .cannotConfirmCanceled) :=
  ⟨by decide, by decide,
   (confirmOrder_canceled_fails c7Store 1 (some "xyz") 20
      ⟨1, 1, "CANCELED", 2000, 7, 12, some 9, some 12⟩ [] (by decide) (by decide)
      (by
        intro key h
        have : key = "xyz" := by
          simp only [suppliedKey] at h
          split at h
          · cases h
          · exact (Option.some.inj h).symm
        rw [this]
        decide)).1⟩

/-! ## C8 -/

theorem selectKey_insertKey (row : IdempotencyKey) (db : Store) :
    selectKey (insertKey row db) row.key = selectKey db row.key ++ [row] := by
  simp [selectKey, insertKey, List.filter_append]

theorem selectKey_updateOrderConfirmed (status : String) (orderId now : Nat) (db : Store)
    (key : String) :
    selectKey (updateOrderConfirmed status orderId now db) key = selectKey db key := rfl

/-- C8, as the claim states it, fails for the empty key, which `if (idempotencyKey)` takes as
no key: on the scenario store, where order 1 is CREATED, `confirmOrder(1, "")` succeeds and
returns the order as last committed, with status CREATED, and stores no record; the second
`confirmOrder(1, "")` returns the order with status CONFIRMED, not the first result. -/
theorem confirmOrder_empty_key_differs :
    (confirmOrder scn1 1 (some "") 9).2
      = .ok (some ⟨1, 1, "CREATED", 2000, 7, 7, none, none,
          [⟨1, 10, 2, 1000, 2000, "Widget", "SKU-10"⟩]⟩) ∧
    (confirmOrder scn1 1 (some "") 9).1.idempotency_keys = [] ∧
    (confirmOrder (confirmOrder scn1 1 (some "") 9).1 1 (some "") 15).2
      = .ok (some ⟨1, 1, "CONFIRMED", 2000, 7, 9, some 9, none,
          [⟨1, 10, 2, 1000, 2000, "Widget", "SKU-10"⟩]⟩) ∧
    (confirmOrder (confirmOrder scn1 1 (some "") 9).1 1 (some "") 15).2
      ≠ .ok (JSON.parse (JSON.stringify (some ⟨1, 1, "CREATED", 2000, 7, 7, none, none,
          [⟨1, 10, 2, 1000, 2000, "Widget", "SKU-10"⟩]⟩))) := by
  decide

/-- C8, amended. Let `confirmOrder(orderId, key)` with a non-empty key succeed with result
`r`.  A second `confirmOrder(orderId, key)` on the
resulting store, at any later time, returns `r` as it comes back from
`JSON.parse(JSON.stringify(r))` and leaves that store as it is: the order row, its status and
its `confirmed_at` are written at most once. -/
theorem confirmOrder_idempotent_under_key (db : Store) (orderId : Nat) (key : String)
    (now1 now2 : Nat) (r : Option OrderView) (hk : key ≠ "")
    (h : (confirmOrder db orderId (some key) now1).2 = .ok r) :
    confirmOrder (confirmOrder db orderId (some key) now1).1 orderId (some key) now2
      = ((confirmOrder db orderId (some key) now1).1, .ok (JSON.parse (JSON.stringify r))) := by
  cases hsel : selectKey db key with
  | cons cachedKey rest =>
    have h1 := confirmOrder_cached db orderId key now1 cachedKey rest hk hsel
    rw [h1] at h ⊢
    simp only [Except.ok.injEq] at h
    rw [confirmOrder_cached db orderId key now2 cachedKey rest hk hsel, ← h]
    rfl
  | nil =>
    have hk2 : ∀ key2, suppliedKey (some key) = some key2 → selectKey db key2 = [] := by
      intro key2 h2
      rw [suppliedKey_some key hk] at h2
      rw [← Option.some.inj h2]
      exact hsel
    have h1 := confirmOrder_not_cached db orderId (some key) now1 hk2
    cases hord : selectOrder db orderId with
    | nil =>
      rw [h1] at h
      simp [confirmLocked, beginTransaction, hord] at h
    | cons order rest =>
      by_cases hc : order.status = "CONFIRMED"
      · have h3 : confirmOrder db orderId (some key) now1
            = (db, .ok (getOrderById db orderId)) := by
          rw [h1]
          simp only [confirmLocked, beginTransaction, hord, hc, if_true, Conn.commit]
        have h4 : confirmOrder db orderId (some key) now2
            = (db, .ok (getOrderById db orderId)) := by
          rw [confirmOrder_not_cached db orderId (some key) now2 hk2]
          simp only [confirmLocked, beginTransaction, hord, hc, if_true, Conn.commit]
        rw [h3] at h ⊢
        simp only [Except.ok.injEq] at h
        rw [h4, ← h]
        rfl
      · by_cases hx : order.status = "CANCELED"
        · rw [h1] at h
          simp [confirmLocked, beginTransaction, hord, hc, hx] at h
        · have h3 := confirmLocked_transition db orderId (some key) now1 order rest hord hc hx
          rw [suppliedKey_some key hk] at h3
          rw [h1, h3] at h ⊢
          simp only [Except.ok.injEq] at h
          rw [← h]
          refine confirmOrder_cached _ orderId key now2
            { key := key, target_type := "order_confirmation", target_id := orderId,
              status := "completed", response_body := JSON.stringify (getOrderById db orderId),
              expires_at := expiresAt now1 } [] hk ?_
          have := selectKey_insertKey
            { key := key, target_type := "order_confirmation", target_id := orderId,
              status := "completed", response_body := JSON.stringify (getOrderById db orderId),
              expires_at := expiresAt now1 } (updateOrderConfirmed "CONFIRMED" orderId now1 db)
          simp only [selectKey_updateOrderConfirmed, hsel, List.nil_append] at this
          exact this

/-- Witness of C8 amended: the scenario, confirming order 1 twice under key "abc". -/
theorem confirmOrder_idempotent_under_key_witness :
    (confirmOrder scn1 1 (some "abc") 9).2 = .ok (getOrderById scn1 1) ∧
    confirmOrder (confirmOrder scn1 1 (some "abc") 9).1 1 (some "abc") 15
      = ((confirmOrder scn1 1 (some "abc") 9).1,
         .ok (JSON.parse (JSON.stringify (getOrderById scn1 1)))) :=
  ⟨by decide,
   confirmOrder_idempotent_under_key scn1 1 "abc" 9 15 (getOrderById scn1 1) (by decide)
     (by decide)⟩

/-! ## C9 -/

/-- C9. When the store holds a record for key `key` (a non-empty string, the only kind the code
treats as a key), `cachedKey` being the row the key query returns first, `confirmOrder(id, key)`
returns `JSON.parse(cachedKey.response_body)` for every order id and leaves the whole store
(orders, order lines, products, idempotency records) as it was; the result is the same
whatever the orders, order lines and products tables hold, so the order is not looked up. -/
theorem confirmOrder_replay (db : Store) (id : Nat) (key : String) (now : Nat)
    (cachedKey : IdempotencyKey) (rest : List IdempotencyKey) (hk : key ≠ "")
    (h : selectKey db key = cachedKey :: rest) :
    confirmOrder db id (some key) now = (db, .ok (JSON.parse cachedKey.response_body)) ∧
    ∀ products orders order_items,
      (confirmOrder { db with products := products, orders := orders,
                              order_items := order_items } id (some key) now).2
        = .ok (JSON.parse cachedKey.response_body) := by
  constructor
  · exact confirmOrder_cached db id key now cachedKey rest hk h
  · intro products orders order_items
    exact congrArg Prod.snd
      (confirmOrder_cached ⟨products, orders, order_items, db.idempotency_keys⟩ id key now
        cachedKey rest hk h)

/-- Witness of C9: `c7Store` holds a record for "abc"; confirming the missing order 99 under
that key replays it. -/
theorem confirmOrder_replay_witness :
    selectKey c7Store "abc" = [abcRecord (getOrderById scn1 1)] ∧
    confirmOrder c7Store 99 (some "abc") 40
      = (c7Store, .ok (JSON.parse (abcRecord (getOrderById scn1 1)).response_body)) :=
  ⟨by decide,
   (confirmOrder_replay c7Store 99 "abc" 40 (abcRecord (getOrderById scn1 1)) [] (by decide)
      (by decide)).1⟩

/-! ## C10 -/

/-- C10, as the claim states it, fails: in `c10Store` key "abc" is recorded for order 1, and
`confirmOrder(2, "abc")` returns the result stored for order 1 (an order view with id 1),
leaving order 2 CREATED. -/
theorem confirmOrder_replays_other_order :
    (selectKey c10Store "abc").map (fun r => r.target_id) = [1] ∧
    (confirmOrder c10Store 2 (some "abc") 10).2
      = .ok ((selectKey c10Store "abc").head?.bind (fun r => JSON.parse r.response_body)) ∧
    ((selectKey c10Store "abc").head?.bind (fun r => JSON.parse r.response_body)).map
      (fun v => v.id) = some 1 ∧
    (getOrderById (confirmOrder c10Store 2 (some "abc") 10).1 2).map (fun v => v.status)
      = some "CREATED" := by
  decide

/-- C10, amended. The record of a key is replayed whatever order is requested: when key `key`
(a non-empty string) is recorded, the first row for it being `cachedKey` with target order
`a`, then for every order id `b ≠ a`, `confirmOrder(b, key)` returns
`JSON.parse(cachedKey.response_body)`, the result stored for `a`, and leaves the store as it
was; the target of the record is not compared with the requested order. -/
theorem replay_ignores_target_order (db : Store) (a b : Nat) (key : String) (now : Nat)
    (cachedKey : IdempotencyKey) (rest : List IdempotencyKey) (hk : key ≠ "")
    (h : selectKey db key = cachedKey :: rest) (_ha : cachedKey.target_id = a) (_hb : b ≠ a) :
    confirmOrder db b (some key) now = (db, .ok (JSON.parse cachedKey.response_body)) :=
  confirmOrder_cached db b key now cachedKey rest hk h

/-- Witness of C10 amended: in `c10Store` the record of "abc" targets order 1 and is replayed
for order 2. -/
theorem replay_ignores_target_order_witness :
    selectKey c10Store "abc" = [abcRecord (getOrderById (createOrder scn1 1 [⟨10, 1⟩] 8).1 1)] ∧
    confirmOrder c10Store 2 (some "abc") 10
      = (c10Store, .ok (JSON.parse
          (abcRecord (getOrderById (createOrder scn1 1 [⟨10, 1⟩] 8).1 1)).response_body)) :=
  ⟨by decide,
   replay_ignores_target_order c10Store 1 2 "abc" 10
     (abcRecord (getOrderById (createOrder scn1 1 [⟨10, 1⟩] 8).1 1)) [] (by decide) (by decide)
     (by decide) (by decide)⟩

/-! ## Lemmas on `cancelOrder` -/

theorem store_eta (db : Store) :
    (⟨db.products, db.orders, db.order_items, db.idempotency_keys⟩ : Store) = db := by
  cases db; rfl

theorem restoredQty_nil (i : Nat) : restoredQty [] i = 0 := by
  simp [restoredQty]

theorem restoredQty_cons (l : OrderItem) (rest : List OrderItem) (i : Nat) :
    restoredQty (l :: rest) i
      = (if i = l.product_id then l.qty else 0) + restoredQty rest i := by
  simp only [restoredQty, List.filter_cons]
  by_cases h : l.product_id = i
  · simp [h]
  · have h2 : ¬ i = l.product_id := fun e => h e.symm
    simp [h, h2]

theorem restoreItems_committed (lines : List OrderItem) :
    ∀ c : Conn, (restoreItems c lines).committed = c.committed := by
  induction lines with
  | nil => intro c; rfl
  | cons l rest ih => intro c; simp only [restoreItems]; rw [ih]; rfl

theorem restoreItems_work (lines : List OrderItem) :
    ∀ c : Conn, (restoreItems c lines).work
      = adjustStock (fun i => - restoredQty lines i) c.work := by
  induction lines with
  | nil =>
    intro c
    have : (fun i => - restoredQty [] i) = fun _ => (0 : Int) := by
      funext i; simp [restoredQty_nil]
    rw [this, adjustStock_zero]; rfl
  | cons l rest ih =>
    intro c
    simp only [restoreItems]
    rw [ih]
    simp only [Conn.execute, restoreStock_eq_adjustStock, adjustStock_adjustStock]
    congr 1
    funext i
    rw [restoredQty_cons]
    split <;> ring

theorem selectOrder_orders_map (f : Order → Order) (hf : ∀ o, (f o).id = o.id) (db : Store)
    (orderId : Nat) :
    selectOrder { db with orders := (db.orders.map f) } orderId
      = (selectOrder db orderId).map f := by
  simp only [selectOrder, List.filter_map]
  have : ((fun o : Order => decide (o.id = orderId)) ∘ f)
      = fun o : Order => decide (o.id = orderId) := by
    funext o; simp [hf]
  rw [this]

theorem selectOrder_updateOrderCanceled (status : String) (orderId now : Nat) (db : Store) :
    selectOrder (updateOrderCanceled status orderId now db) orderId
      = (selectOrder db orderId).map (fun o =>
          { o with status := status, canceled_at := some now, updated_at := now }) := by
  have h := selectOrder_orders_map
    (fun o => if o.id = orderId then
      { o with status := status, canceled_at := some now, updated_at := now } else o)
    (by intro o; dsimp only; split <;> rfl) db orderId
  simp only [updateOrderCanceled]
  rw [h]
  apply List.map_congr_left
  intro o ho
  have := (List.mem_filter.1 ho).2
  simp at this
  simp [this]

/-- The store after a cancellation that goes through. -/
theorem cancelOrder_active (db : Store) (orderId now : Nat) (order : Order) (rest : List Order)
    (hsel : selectOrder db orderId = order :: rest) (h1 : order.status ≠ "CANCELED")
    (h2 : ¬ (order.status = "CONFIRMED" ∧ windowExpired order.confirmed_at now = true)) :
    cancelOrder db orderId now =
      (updateOrderCanceled "CANCELED" orderId now
         (adjustStock (fun i => - restoredQty (selectOrderItems db orderId) i) db),
       .ok (getOrderById (updateOrderCanceled "CANCELED" orderId now
         (adjustStock (fun i => - restoredQty (selectOrderItems db orderId) i) db)) orderId)) := by
  simp only [cancelOrder, beginTransaction, hsel, h1, h2, if_false, Conn.commit, Conn.execute,
    restoreItems_work]

theorem windowExpired_iff (confirmed_at : Option Nat) (now : Nat) :
    windowExpired confirmed_at now = true ↔
      (now : Int) - ((confirmed_at.getD 0 : Nat) : Int) > 600000 := by
  simp [windowExpired]

/-! ## Lemmas on what `createOrder` leaves behind -/

theorem createOrder_cases (db : Store) (customerId : Nat) (items : List Item) (now : Nat) :
    (∃ e, createOrder db customerId items now = (db, .error e)) ∨
    (∃ lines,
      createOrder db customerId items now
        = (⟨(adjustStock (reservedQty items) db).products,
            db.orders ++ [createdOrder db customerId items now],
            db.order_items ++ lines, db.idempotency_keys⟩,
           .ok (createdOrder db customerId items now).id) ∧
      lines.map OrderItem.columns
        = items.map (jsLineOf db (createdOrder db customerId items now).id)) := by
  have hc := reserveItems_committed items (beginTransaction db) 0 []
  simp only [createOrder]
  generalize hr : reserveItems (beginTransaction db) 0 [] items = r at hc ⊢
  obtain ⟨c, res⟩ := r
  cases res with
  | error e =>
    left
    exact ⟨e, by simpa [Conn.rollback, beginTransaction] using hc⟩
  | ok v =>
    right
    obtain ⟨t, ps⟩ := v
    obtain ⟨hw, ht, hps⟩ := reserveItems_ok items _ _ _ _ _ _ hr
    simp only [beginTransaction] at hw ht hps
    have hord : c.work.orders = db.orders := by rw [hw]; rfl
    obtain ⟨_, i2, i3, i4, lines, i5, i6⟩ := insertItems_spec
      (nextId (c.work.orders.map (fun o => o.id))) ps
      (c.execute (insertOrder customerId "CREATED" t now))
    refine ⟨lines, ?_, ?_⟩
    · simp only [Conn.commit]
      rw [← store_eta (insertItems _ _ _).work, i2, i3, i4, i5]
      simp only [Conn.execute, insertOrder, hord, hw, ht, zero_add, adjustStock, createdOrder]
    · rw [i6, hps, hord]
      simp [jsLineOf, createdOrder]

theorem lines_order_id (db : Store) (orderId : Nat) :
    ∀ (lines : List OrderItem) (items : List Item),
      lines.map OrderItem.columns = items.map (jsLineOf db orderId) →
        ∀ l ∈ lines, l.order_id = orderId := by
  intro lines
  induction lines with
  | nil => intro items _ l hl; cases hl
  | cons a rest ih =>
    intro items h l hl
    cases items with
    | nil => simp at h
    | cons it its =>
      simp only [List.map_cons, List.cons.injEq] at h
      rcases List.mem_cons.1 hl with rfl | hmem
      · have := congrArg Prod.fst h.1
        simpa [OrderItem.columns, lineOf] using this
      · exact ih its h.2 l hmem

theorem restoredQty_of_columns (db : Store) (orderId : Nat) :
    ∀ (lines : List OrderItem) (items : List Item),
      lines.map OrderItem.columns = items.map (jsLineOf db orderId) →
        ∀ i, restoredQty lines i = reservedQty items i := by
  intro lines
  induction lines with
  | nil =>
    intro items h i
    cases items with
    | nil => rw [restoredQty_nil, reservedQty_nil]
    | cons it its => simp at h
  | cons a rest ih =>
    intro items h i
    cases items with
    | nil => simp at h
    | cons it its =>
      simp only [List.map_cons, List.cons.injEq] at h
      have h1 := h.1
      simp only [OrderItem.columns, jsLineOf, Prod.mk.injEq] at h1
      rw [restoredQty_cons, reservedQty_cons, ih its h.2 i, h1.2.1, h1.2.2.1]

theorem selectOrder_fresh (db : Store) :
    selectOrder db (nextId (db.orders.map (fun o => o.id))) = [] := by
  simp only [selectOrder, List.filter_eq_nil_iff, decide_eq_true_eq]
  intro o ho
  exact nextId_fresh _ _ (List.mem_map_of_mem (fun o => o.id) ho)

theorem selectOrderItems_fresh (db : Store) (h : LinesBelong db) :
    selectOrderItems db (nextId (db.orders.map (fun o => o.id))) = [] := by
  simp only [selectOrderItems, List.filter_eq_nil_iff, decide_eq_true_eq]
  intro l hl e
  obtain ⟨o, ho, hid⟩ := h l hl
  exact nextId_fresh _ _ (List.mem_map_of_mem (fun o => o.id) ho) (hid.trans e)

theorem filter_eq_self_of_forall {α : Type} (p : α → Bool) (l : List α)
    (h : ∀ a ∈ l, p a = true) : l.filter p = l :=
  List.filter_eq_self.2 h

/-! ## What a cancellation that goes through does -/

theorem cancelOrder_active_spec (db : Store) (orderId now : Nat) (order : Order)
    (rest : List Order) (hsel : selectOrder db orderId = order :: rest)
    (h1 : order.status ≠ "CANCELED")
    (h2 : ¬ (order.status = "CONFIRMED" ∧ windowExpired order.confirmed_at now = true)) :
    (cancelOrder db orderId now).1.products = db.products.map (fun p =>
      { p with stock := p.stock + restoredQty (selectOrderItems db orderId) p.id }) ∧
    (selectOrder (cancelOrder db orderId now).1 orderId).head?
      = some { order with status := "CANCELED", canceled_at := some now, updated_at := now } ∧
    (cancelOrder db orderId now).1.order_items = db.order_items ∧
    (cancelOrder db orderId now).1.idempotency_keys = db.idempotency_keys ∧
    ∃ view, (cancelOrder db orderId now).2 = .ok (some view) ∧ view.status = "CANCELED" ∧
      view.canceled_at = some now ∧ view.id = order.id := by
  rw [cancelOrder_active db orderId now order rest hsel h1 h2]
  have hs : selectOrder (updateOrderCanceled "CANCELED" orderId now
      (adjustStock (fun i => - restoredQty (selectOrderItems db orderId) i) db)) orderId
      = { order with status := "CANCELED", canceled_at := some now, updated_at := now } ::
        rest.map (fun o =>
          { o with status := "CANCELED", canceled_at := some now, updated_at := now }) := by
    rw [selectOrder_updateOrderCanceled]
    have : selectOrder (adjustStock (fun i => - restoredQty (selectOrderItems db orderId) i) db)
        orderId = selectOrder db orderId := rfl
    rw [this, hsel]
    rfl
  refine ⟨?_, ?_, rfl, rfl, ?_⟩
  · simp [updateOrderCanceled, adjustStock, sub_neg_eq_add]
  · simp only [hs, List.head?_cons]
  · exact ⟨_, congrArg Except.ok (getOrderById_of_select _ orderId _ _ hs), rfl, rfl, rfl⟩

/-! ## C12 -/

theorem cancelOrder_canceled (db : Store) (orderId now : Nat) (order : Order)
    (rest : List Order) (hsel : selectOrder db orderId = order :: rest)
    (hst : order.status = "CANCELED") :
    cancelOrder db orderId now = (db, .ok (getOrderById db orderId)) := by
  simp only [cancelOrder, beginTransaction, hsel, hst, if_true, Conn.commit]

theorem cancellable_conditions (order : Order) (now : Nat)
    (hst : order.status = "CREATED" ∨ (order.status = "CONFIRMED" ∧
      ∃ t : Nat, order.confirmed_at = some t ∧ (now : Int) - (t : Int) ≤ 600000)) :
    order.status ≠ "CANCELED" ∧
    ¬ (order.status = "CONFIRMED" ∧ windowExpired order.confirmed_at now = true) := by
  constructor
  · rcases hst with h | ⟨h, _⟩ <;> rw [h] <;> decide
  · rintro ⟨hc, hexp⟩
    rcases hst with h | ⟨_, t, ht, hle⟩
    · rw [h] at hc; exact absurd hc (by decide)
    · rw [windowExpired_iff, ht] at hexp
      simp only [Option.getD_some] at hexp
      omega

/-- C12. (1) When order `orderId` is CANCELED, `cancelOrder` succeeds, returns the current
order (status CANCELED, the `canceled_at` already stored) and leaves the whole store as it
was.  (2) When order `orderId` is cancellable (CREATED, or CONFIRMED within the window), a
second `cancelOrder` after the first leaves the store reached by the first as it is, so that
after both calls every product row has had the qty of the order's lines added exactly once. -/
theorem cancelOrder_idempotent :
    (∀ (db : Store) (orderId now : Nat) (order : Order) (rest : List Order),
      selectOrder db orderId = order :: rest → order.status = "CANCELED" →
        cancelOrder db orderId now = (db, .ok (getOrderById db orderId)) ∧
        ∃ view, getOrderById db orderId = some view ∧ view.status = "CANCELED" ∧
          view.canceled_at = order.canceled_at) ∧
    (∀ (db : Store) (orderId now1 now2 : Nat) (order : Order) (rest : List Order),
      selectOrder db orderId = order :: rest →
      (order.status = "CREATED" ∨ (order.status = "CONFIRMED" ∧
        ∃ t : Nat, order.confirmed_at = some t ∧ (now1 : Int) - (t : Int) ≤ 600000)) →
        cancelOrder (cancelOrder db orderId now1).1 orderId now2
          = ((cancelOrder db orderId now1).1,
             .ok (getOrderById (cancelOrder db orderId now1).1 orderId)) ∧
        (cancelOrder (cancelOrder db orderId now1).1 orderId now2).1.products
          = db.products.map (fun p =>
              { p with stock := p.stock + restoredQty (selectOrderItems db orderId) p.id })) := by
  constructor
  · intro db orderId now order rest hsel hst
    exact ⟨cancelOrder_canceled db orderId now order rest hsel hst,
      _, getOrderById_of_select db orderId order rest hsel, hst, rfl⟩
  · intro db orderId now1 now2 order rest hsel hst
    obtain ⟨h1, h2⟩ := cancellable_conditions order now1 hst
    obtain ⟨hp, hhead, _⟩ := cancelOrder_active_spec db orderId now1 order rest hsel h1 h2
    cases hs : selectOrder (cancelOrder db orderId now1).1 orderId with
    | nil => rw [hs] at hhead; cases hhead
    | cons o2 rest2 =>
      rw [hs] at hhead
      simp only [List.head?_cons, Option.some.injEq] at hhead
      have hc := cancelOrder_canceled (cancelOrder db orderId now1).1 orderId now2 o2 rest2 hs
        (by rw [hhead])
      rw [hc]
      exact ⟨rfl, hp⟩

/-- Witness of C12: order 1 of `c7Store` is CANCELED; cancelling it again changes nothing, and
cancelling order 1 of the scenario twice leaves product 10 with stock 5, not 7. -/
theorem cancelOrder_idempotent_witness :
    selectOrder c7Store 1 = [⟨1, 1, "CANCELED", 2000, 7, 12, some 9, some 12⟩] ∧
    cancelOrder c7Store 1 50 = (c7Store, .ok (getOrderById c7Store 1)) ∧
    selectOrder scn1 1 = [⟨1, 1, "CREATED", 2000, 7, 7, none, none⟩] ∧
    cancelOrder (cancelOrder scn1 1 8).1 1 9
      = ((cancelOrder scn1 1 8).1, .ok (getOrderById (cancelOrder scn1 1 8).1 1)) ∧
    (cancelOrder (cancelOrder scn1 1 8).1 1 9).1.products.map (fun p => p.stock) = [5] :=
  ⟨by decide,
   (cancelOrder_idempotent.1 c7Store 1 50 ⟨1, 1, "CANCELED", 2000, 7, 12, some 9, some 12⟩ []
      (by decide) rfl).1,
   by decide,
   (cancelOrder_idempotent.2 scn1 1 8 9 ⟨1, 1, "CREATED", 2000, 7, 7, none, none⟩ []
      (by decide) (Or.inl rfl)).1,
   by decide⟩

/-! ## C13 -/

theorem cancelOrder_expired (db : Store) (orderId now : Nat) (order : Order)
    (rest : List Order) (hsel : selectOrder db orderId = order :: rest)
    (hst : order.status = "CONFIRMED") (hexp : windowExpired order.confirmed_at now = true) :
    cancelOrder db orderId now = (db, .error .cancelWindowExpired) := by
  simp only [cancelOrder, beginTransaction, hsel, hexp, hst, and_self, if_true, Conn.rollback]
  exact if_neg (by decide)

theorem cancelOrder_error_unchanged (db : Store) (orderId now : Nat) (e : Err)
    (h : (cancelOrder db orderId now).2 = .error e) : (cancelOrder db orderId now).1 = db := by
  simp only [cancelOrder, beginTransaction] at h ⊢
  split
  · rfl
  · rename_i order rest hsel
    simp only [hsel] at h
    split
    · rfl
    · rename_i h1
      simp only [h1, if_false] at h
      split
      · rfl
      · rename_i h2
        simp only [h2, if_false] at h
        cases h

/-- C13. For an order with status CONFIRMED, `cancelOrder` throws `Cannot cancel order
confirmed more than 10 minutes ago` exactly when the call comes strictly more than 600000 ms
after its `confirmed_at` (a null `confirmed_at` counting as the epoch), and succeeds exactly
when it comes at most 600000 ms after; on a missing order it throws `Order not found`; and
whenever it throws, the store, so every status and every stock, is as before. -/
theorem cancelOrder_window :
    (∀ (db : Store) (orderId now : Nat) (order : Order) (rest : List Order),
      selectOrder db orderId = order :: rest → order.status = "CONFIRMED" →
        ((cancelOrder db orderId now).2 = .error .cancelWindowExpired ↔
          (now : Int) - ((order.confirmed_at.getD 0 : Nat) : Int) > 600000) ∧
        ((∃ v, (cancelOrder db orderId now).2 = .ok v) ↔
          (now : Int) - ((order.confirmed_at.getD 0 : Nat) : Int) ≤ 600000)) ∧
    Err.cancelWindowExpired.message = "Cannot cancel order confirmed more than 10 minutes ago" ∧
    (∀ (db : Store) (orderId now : Nat), selectOrder db orderId = [] →
      cancelOrder db orderId now = (db, .error .orderNotFound)) ∧
    Err.orderNotFound.message = "Order not found" ∧
    (∀ (db : Store) (orderId now : Nat) (e : Err),
      (cancelOrder db orderId now).2 = .error e → (cancelOrder db orderId now).1 = db) := by
  refine ⟨?_, rfl, ?_, rfl, cancelOrder_error_unchanged⟩
  · intro db orderId now order rest hsel hst
    by_cases hexp : windowExpired order.confirmed_at now = true
    · have hc := cancelOrder_expired db orderId now order rest hsel hst hexp
      have hgt := (windowExpired_iff _ _).1 hexp
      rw [hc]
      constructor
      · exact ⟨fun _ => hgt, fun _ => rfl⟩
      · constructor
        · rintro ⟨v, hv⟩; cases hv
        · intro hle; omega
    · have hc := cancelOrder_active db orderId now order rest hsel
        (by rw [hst]; decide) (fun h => hexp h.2)
      have hle : ¬ (now : Int) - ((order.confirmed_at.getD 0 : Nat) : Int) > 600000 :=
        fun h => hexp ((windowExpired_iff _ _).2 h)
      rw [hc]
      constructor
      · constructor
        · intro h; cases h
        · intro h; exact absurd h hle
      · exact ⟨fun _ => by omega, fun _ => ⟨_, rfl⟩⟩
  · intro db orderId now hsel
    simp only [cancelOrder, beginTransaction, hsel, Conn.rollback]

/-- Witness of C13: order 1 of `scn2` was confirmed at instant 9; cancelling it 11 minutes
later fails, 9 minutes later and exactly 10 minutes later succeeds; order 99 is missing. -/
theorem cancelOrder_window_witness :
    selectOrder scn2 1 = [⟨1, 1, "CONFIRMED", 2000, 7, 9, some 9, none⟩] ∧
    (cancelOrder scn2 1 (9 + 11 * 60 * 1000)).2 = .error .cancelWindowExpired ∧
    (cancelOrder scn2 1 (9 + 11 * 60 * 1000)).1 = scn2 ∧
    errorOf (cancelOrder scn2 1 (9 + 9 * 60 * 1000)).2 = none ∧
    errorOf (cancelOrder scn2 1 (9 + 10 * 60 * 1000)).2 = none ∧
    (cancelOrder scn2 1 (9 + 10 * 60 * 1000 + 1)).2 = .error .cancelWindowExpired ∧
    cancelOrder scn2 99 20 = (scn2, .error .orderNotFound) :=
  ⟨by decide,
   ((cancelOrder_window.1 scn2 1 (9 + 11 * 60 * 1000)
      ⟨1, 1, "CONFIRMED", 2000, 7, 9, some 9, none⟩ [] (by decide) rfl).1).2 (by decide),
   cancelOrder_window.2.2.2.2 scn2 1 (9 + 11 * 60 * 1000) .cancelWindowExpired (by decide),
   by decide, by decide, by decide,
   cancelOrder_window.2.2.1 scn2 99 20 (by decide)⟩

/-! ## Lemmas on the status of an order -/

theorem statusStep_refl (a : Option String) : StatusStep a a := by
  cases a with
  | none => exact Or.inl rfl
  | some s => exact Or.inl rfl

theorem statusOf_congr (a b : Store) (h : a.orders = b.orders) (o : Nat) :
    statusOf a o = statusOf b o := by
  simp only [statusOf, selectOrder, h]

theorem statusOf_update (g : Order → Order) (hg : ∀ o, (g o).id = o.id) (db : Store)
    (orderId o : Nat) :
    statusOf { db with orders := (db.orders.map (fun x => if x.id = orderId then g x else x)) } o
      = if o = orderId then (selectOrder db o).head?.map (fun x => (g x).status)
        else statusOf db o := by
  have h := selectOrder_orders_map (fun x => if x.id = orderId then g x else x)
    (by intro x; dsimp only; split <;> simp [hg]) db o
  simp only [statusOf, h]
  by_cases ho : o = orderId
  · subst ho
    have : (selectOrder db o).map (fun x => if x.id = o then g x else x)
        = (selectOrder db o).map g := by
      apply List.map_congr_left
      intro x hx
      have := (List.mem_filter.1 hx).2
      simp at this
      simp [this]
    simp only [this, if_true, List.head?_map, Option.map_map]
    rfl
  · have : (selectOrder db o).map (fun x => if x.id = orderId then g x else x)
        = selectOrder db o := by
      conv_rhs => rw [← List.map_id (selectOrder db o)]
      apply List.map_congr_left
      intro x hx
      have := (List.mem_filter.1 hx).2
      simp at this
      have hne : ¬ x.id = orderId := by rw [this]; exact ho
      simp [hne]
    simp only [this, ho, if_false]

theorem statusOf_updateOrderConfirmed (db : Store) (orderId now o : Nat) :
    statusOf (updateOrderConfirmed "CONFIRMED" orderId now db) o
      = if o = orderId then (statusOf db o).map (fun _ => "CONFIRMED") else statusOf db o := by
  have h := statusOf_update
    (fun x => { x with status := "CONFIRMED", confirmed_at := some now, updated_at := now })
    (fun _ => rfl) db orderId o
  simp only [updateOrderConfirmed]
  rw [h]
  split
  · simp only [statusOf, Option.map_map]; rfl
  · rfl

theorem statusOf_updateOrderCanceled (db : Store) (orderId now o : Nat) :
    statusOf (updateOrderCanceled "CANCELED" orderId now db) o
      = if o = orderId then (statusOf db o).map (fun _ => "CANCELED") else statusOf db o := by
  have h := statusOf_update
    (fun x => { x with status := "CANCELED", canceled_at := some now, updated_at := now })
    (fun _ => rfl) db orderId o
  simp only [updateOrderCanceled]
  rw [h]
  split
  · simp only [statusOf, Option.map_map]; rfl
  · rfl

theorem confirmOrder_cases (db : Store) (orderId : Nat) (k : Option String) (now : Nat) :
    (confirmOrder db orderId k now).1 = db ∨
    (∃ order rest, selectOrder db orderId = order :: rest ∧ order.status ≠ "CONFIRMED" ∧
      order.status ≠ "CANCELED" ∧
      (confirmOrder db orderId k now).1.orders
        = (updateOrderConfirmed "CONFIRMED" orderId now db).orders ∧
      (confirmOrder db orderId k now).1.order_items = db.order_items) := by
  have hl : (confirmLocked (beginTransaction db) orderId k now).1 = db ∨
      (∃ order rest, selectOrder db orderId = order :: rest ∧ order.status ≠ "CONFIRMED" ∧
        order.status ≠ "CANCELED" ∧
        (confirmLocked (beginTransaction db) orderId k now).1.orders
          = (updateOrderConfirmed "CONFIRMED" orderId now db).orders ∧
        (confirmLocked (beginTransaction db) orderId k now).1.order_items
          = db.order_items) := by
    cases hsel : selectOrder db orderId with
    | nil => left; simp only [confirmLocked, beginTransaction, hsel, Conn.rollback]
    | cons order rest =>
      by_cases h1 : order.status = "CONFIRMED"
      · left; simp only [confirmLocked, beginTransaction, hsel, h1, if_true, Conn.commit]
      · by_cases h2 : order.status = "CANCELED"
        · left
          simp only [confirmLocked, beginTransaction, hsel, h2, if_true, Conn.rollback]
          rw [if_neg (by decide)]
        · right
          refine ⟨order, rest, rfl, h1, h2, ?_⟩
          rw [confirmLocked_transition db orderId k now order rest hsel h1 h2]
          cases suppliedKey k <;> exact ⟨rfl, rfl⟩
  simp only [confirmOrder]
  split
  · split
    · left; rfl
    · exact hl
  · exact hl

theorem cancelOrder_cases (db : Store) (orderId now : Nat) :
    (cancelOrder db orderId now).1 = db ∨
    (∃ order rest, selectOrder db orderId = order :: rest ∧ order.status ≠ "CANCELED" ∧
      (cancelOrder db orderId now).1
        = updateOrderCanceled "CANCELED" orderId now
            (adjustStock (fun i => - restoredQty (selectOrderItems db orderId) i) db)) := by
  cases hsel : selectOrder db orderId with
  | nil => left; simp only [cancelOrder, beginTransaction, hsel, Conn.rollback]
  | cons order rest =>
    by_cases h1 : order.status = "CANCELED"
    · left; rw [cancelOrder_canceled db orderId now order rest hsel h1]
    · by_cases h2 : order.status = "CONFIRMED" ∧ windowExpired order.confirmed_at now = true
      · left; rw [cancelOrder_expired db orderId now order rest hsel h2.1 h2.2]
      · right
        exact ⟨order, rest, rfl, h1, by rw [cancelOrder_active db orderId now order rest hsel h1 h2]⟩

theorem updateProduct_tables (db : Store) (id : Nat) (price_cents stock : Option Int) :
    (updateProduct db id price_cents stock).1.orders = db.orders ∧
    (updateProduct db id price_cents stock).1.order_items = db.order_items ∧
    (updateProduct db id price_cents stock).1.idempotency_keys = db.idempotency_keys := by
  simp only [updateProduct]
  split <;> exact ⟨rfl, rfl, rfl⟩

theorem step_status (db : Store) (op : Op) (o : Nat) :
    StatusStep (statusOf db o) (statusOf (step db op) o) := by
  cases op with
  | createOrder customerId items now =>
    simp only [step]
    rcases createOrder_cases db customerId items now with ⟨e, he⟩ | ⟨lines, hc, _⟩
    · rw [he]; exact statusStep_refl _
    · rw [hc]
      simp only [statusOf, selectOrder, List.filter_append]
      cases hsel : db.orders.filter (fun x => decide (x.id = o)) with
      | cons x rest => simp only [List.cons_append, List.head?_cons, Option.map_some']; exact Or.inl rfl
      | nil =>
        simp only [List.nil_append, List.head?_nil, Option.map_none']
        by_cases hid : nextId (db.orders.map (fun x => x.id)) = o
        · right; simp [List.filter, hid, createdOrder]
        · left; simp [List.filter, hid, createdOrder]
  | confirmOrder orderId k now =>
    simp only [step]
    rcases confirmOrder_cases db orderId k now with h | ⟨order, rest, hsel, h1, h2, ho, _⟩
    · rw [h]; exact statusStep_refl _
    · rw [statusOf_congr _ _ ho, statusOf_updateOrderConfirmed]
      by_cases hid : o = orderId
      · subst hid
        simp only [if_true, statusOf, hsel, List.head?_cons, Option.map_some']
        exact Or.inr (Or.inl ⟨rfl, h1, h2⟩)
      · simp only [hid, if_false]; exact statusStep_refl _
  | cancelOrder orderId now =>
    simp only [step]
    rcases cancelOrder_cases db orderId now with h | ⟨order, rest, hsel, h1, hc⟩
    · rw [h]; exact statusStep_refl _
    · rw [hc, statusOf_updateOrderCanceled]
      by_cases hid : o = orderId
      · subst hid
        have hsel2 : selectOrder
            (adjustStock (fun i => - restoredQty (selectOrderItems db o) i) db) o
            = order :: rest := hsel
        simp only [if_true, statusOf, hsel, hsel2, List.head?_cons, Option.map_some']
        exact Or.inr (Or.inr ⟨rfl, h1⟩)
      · simp only [hid, if_false]; exact statusStep_refl _
  | updateProduct id price_cents stock =>
    simp only [step]
    rw [statusOf_congr _ db (updateProduct_tables db id price_cents stock).1]
    exact statusStep_refl _

theorem step_rows_valid (db : Store) (op : Op)
    (h : ∀ x ∈ db.orders, ValidStatus x.status) :
    ∀ x ∈ (step db op).orders, ValidStatus x.status := by
  cases op with
  | createOrder customerId items now =>
    simp only [step]
    rcases createOrder_cases db customerId items now with ⟨e, he⟩ | ⟨lines, hc, _⟩
    · rw [he]; exact h
    · rw [hc]
      intro x hx
      rcases List.mem_append.1 hx with hx | hx
      · exact h x hx
      · rw [List.mem_singleton.1 hx]; exact Or.inl rfl
  | confirmOrder orderId k now =>
    simp only [step]
    rcases confirmOrder_cases db orderId k now with he | ⟨_, _, _, _, _, ho, _⟩
    · rw [he]; exact h
    · rw [ho]
      intro x hx
      simp only [updateOrderConfirmed, List.mem_map] at hx
      obtain ⟨y, hy, rfl⟩ := hx
      split
      · exact Or.inr (Or.inl rfl)
      · exact h y hy
  | cancelOrder orderId now =>
    simp only [step]
    rcases cancelOrder_cases db orderId now with he | ⟨_, _, _, _, hc⟩
    · rw [he]; exact h
    · rw [hc]
      intro x hx
      simp only [updateOrderCanceled, adjustStock, List.mem_map] at hx
      obtain ⟨y, hy, rfl⟩ := hx
      split
      · exact Or.inr (Or.inr rfl)
      · exact h y hy
  | updateProduct id price_cents stock =>
    simp only [step]
    rw [(updateProduct_tables db id price_cents stock).1]
    exact h

theorem statusStep_canceled (b : Option String) (h : StatusStep (some "CANCELED") b) :
    b = some "CANCELED" := by
  rcases h with h | ⟨_, _, h⟩ | ⟨h, _⟩
  · exact h
  · exact absurd rfl h
  · exact h

theorem statusStep_settled (a b : Option String) (h : StatusStep a b)
    (ha : a = some "CONFIRMED" ∨ a = some "CANCELED") :
    b = some "CONFIRMED" ∨ b = some "CANCELED" := by
  rcases ha with rfl | rfl
  · rcases h with h | ⟨h, _⟩ | ⟨h, _⟩
    · exact Or.inl h
    · exact Or.inl h
    · exact Or.inr h
  · exact Or.inr (statusStep_canceled b h)

theorem statusStep_isSome (a b : Option String) (h : StatusStep a b) (ha : a.isSome = true) :
    b.isSome = true := by
  cases a with
  | none => cases ha
  | some s =>
    rcases h with h | ⟨h, _⟩ | ⟨h, _⟩ <;> rw [h] <;> rfl

/-! ## C14 -/

/-- C14. Over every sequence `ops` of `createOrder`, `confirmOrder` and `cancelOrder` calls
(and `updateProduct` calls, which may be interleaved), run from any store `db`: if every order
row of `db` has one of the statuses CREATED, CONFIRMED, CANCELED, in particular if `db` has no
order, so has every order row afterwards; an order that is CANCELED in `db` is CANCELED
afterwards; an order that is CONFIRMED in `db` is CONFIRMED or CANCELED afterwards, never
CREATED; and an order that exists in `db` exists afterwards. -/
theorem status_monotone (db : Store) (ops : List Op) :
    ((∀ x ∈ db.orders, ValidStatus x.status) →
      ∀ x ∈ (run db ops).orders, ValidStatus x.status) ∧
    (∀ o, statusOf db o = some "CANCELED" → statusOf (run db ops) o = some "CANCELED") ∧
    (∀ o, statusOf db o = some "CONFIRMED" →
      (statusOf (run db ops) o = some "CONFIRMED" ∨ statusOf (run db ops) o = some "CANCELED") ∧
      statusOf (run db ops) o ≠ some "CREATED") ∧
    (∀ o, (statusOf db o).isSome = true → (statusOf (run db ops) o).isSome = true) := by
  induction ops generalizing db with
  | nil =>
    refine ⟨fun h => h, fun _ h => h, fun o h => ⟨Or.inl h, ?_⟩, fun _ h => h⟩
    simp only [run, h]
    decide
  | cons op rest ih =>
    obtain ⟨i1, i2, i3, i4⟩ := ih (step db op)
    have settled : ∀ o, (statusOf db o = some "CONFIRMED" ∨ statusOf db o = some "CANCELED") →
        (statusOf (run (step db op) rest) o = some "CONFIRMED" ∨
          statusOf (run (step db op) rest) o = some "CANCELED") := by
      intro o ha
      rcases statusStep_settled _ _ (step_status db op o) ha with h | h
      · exact (i3 o h).1
      · exact Or.inr (i2 o h)
    refine ⟨fun h => i1 (step_rows_valid db op h), ?_, ?_, ?_⟩
    · intro o h
      apply i2
      have := step_status db op o
      rw [h] at this
      exact statusStep_canceled _ this
    · intro o h
      have hs := settled o (Or.inl h)
      refine ⟨hs, ?_⟩
      simp only [run]
      rcases hs with e | e <;> rw [e] <;> decide
    · intro o h
      exact i4 o (statusStep_isSome _ _ (step_status db op o) h)

/-- Witness of C14: after the calls `c14Ops` on the scenario store, order 1, canceled in the
fourth call, and order 2, canceled in the seventh, are still CANCELED. -/
theorem status_monotone_witness :
    (∀ x ∈ scn0.orders, ValidStatus x.status) ∧
    (∀ x ∈ (run scn0 c14Ops).orders, ValidStatus x.status) ∧
    statusOf (run scn0 (c14Ops.take 4)) 1 = some "CANCELED" ∧
    statusOf (run (run scn0 (c14Ops.take 4)) (c14Ops.drop 4)) 1 = some "CANCELED" ∧
    (run scn0 c14Ops).orders.map (fun x => (x.id, x.status))
      = [(1, "CANCELED"), (2, "CANCELED")] :=
  ⟨(fun x hx => by cases hx),
   (status_monotone scn0 c14Ops).1 (fun x hx => by cases hx),
   by decide,
   (status_monotone (run scn0 (c14Ops.take 4)) (c14Ops.drop 4)).2.1 1 (by decide),
   by decide⟩

/-! ## Lemmas on totals and lines -/

theorem lineTotal_nil (o : Nat) : lineTotal [] o = 0 := by
  simp [lineTotal]

theorem lineTotal_cons (l : OrderItem) (rest : List OrderItem) (o : Nat) :
    lineTotal (l :: rest) o
      = (if o = l.order_id then l.unit_price_cents * l.qty else 0) + lineTotal rest o := by
  simp only [lineTotal, List.filter_cons]
  by_cases h : l.order_id = o
  · simp [h]
  · have h2 : ¬ o = l.order_id := fun e => h e.symm
    simp [h, h2]

theorem lineTotal_append (xs ys : List OrderItem) (o : Nat) :
    lineTotal (xs ++ ys) o = lineTotal xs o + lineTotal ys o := by
  simp [lineTotal, List.filter_append]

theorem lineTotal_of_columns (db : Store) (orderId : Nat) :
    ∀ (lines : List OrderItem) (items : List Item),
      lines.map OrderItem.columns = items.map (jsLineOf db orderId) →
        ∀ o, lineTotal lines o
          = if o = orderId then (items.map (fun it => priceOf db it.product_id * it.qty)).sum
            else 0 := by
  intro lines
  induction lines with
  | nil =>
    intro items h o
    cases items with
    | nil => simp [lineTotal_nil]
    | cons it its => simp at h
  | cons a rest ih =>
    intro items h o
    cases items with
    | nil => simp at h
    | cons it its =>
      simp only [List.map_cons, List.cons.injEq] at h
      have h1 := h.1
      simp only [OrderItem.columns, jsLineOf, Prod.mk.injEq] at h1
      rw [lineTotal_cons, ih its h.2 o, h1.1, h1.2.2.1, h1.2.2.2.1]
      by_cases ho : o = orderId <;> simp [ho]

theorem linesBelong_of_map (db db2 : Store) (f : Order → Order)
    (hf : ∀ o, (f o).id = o.id)
    (ho : db2.orders = db.orders.map f) (hl : db2.order_items = db.order_items)
    (h : LinesBelong db) : LinesBelong db2 := by
  intro l hlm
  rw [hl] at hlm
  obtain ⟨o, hom, hid⟩ := h l hlm
  exact ⟨f o, by rw [ho]; exact List.mem_map_of_mem f hom, by rw [hf o]; exact hid⟩

theorem totalsMatch_of_map (db db2 : Store) (f : Order → Order)
    (hf : ∀ o, (f o).id = o.id ∧ (f o).total_cents = o.total_cents)
    (ho : db2.orders = db.orders.map f) (hl : db2.order_items = db.order_items)
    (h : TotalsMatch db) : TotalsMatch db2 := by
  intro o hom
  rw [ho] at hom
  obtain ⟨x, hx, rfl⟩ := List.mem_map.1 hom
  rw [(hf x).1, (hf x).2, hl]
  exact h x hx

theorem step_linesBelong (db : Store) (op : Op) (h : LinesBelong db) :
    LinesBelong (step db op) := by
  cases op with
  | createOrder customerId items now =>
    simp only [step]
    rcases createOrder_cases db customerId items now with ⟨e, he⟩ | ⟨lines, hc, hcols⟩
    · rw [he]; exact h
    · rw [hc]
      have hid := lines_order_id db _ lines items hcols
      intro l hl
      rcases List.mem_append.1 hl with hl | hl
      · obtain ⟨o, ho, hoid⟩ := h l hl
        exact ⟨o, List.mem_append_left _ ho, hoid⟩
      · exact ⟨createdOrder db customerId items now,
          List.mem_append_right _ (List.mem_singleton.2 rfl), (hid l hl).symm⟩
  | confirmOrder orderId k now =>
    simp only [step]
    rcases confirmOrder_cases db orderId k now with he | ⟨_, _, _, _, _, ho, hl⟩
    · rw [he]; exact h
    · exact linesBelong_of_map db _
        (fun o => if o.id = orderId then
          { o with status := "CONFIRMED", confirmed_at := some now, updated_at := now } else o)
        (by intro o; dsimp only; split <;> rfl) ho hl h
  | cancelOrder orderId now =>
    simp only [step]
    rcases cancelOrder_cases db orderId now with he | ⟨_, _, _, _, hc⟩
    · rw [he]; exact h
    · rw [hc]
      exact linesBelong_of_map db _
        (fun o => if o.id = orderId then
          { o with status := "CANCELED", canceled_at := some now, updated_at := now } else o)
        (by intro o; dsimp only; split <;> rfl) rfl rfl h
  | updateProduct id price_cents stock =>
    simp only [step]
    obtain ⟨h1, h2, _⟩ := updateProduct_tables db id price_cents stock
    exact linesBelong_of_map db (updateProduct db id price_cents stock).1 (fun o => o)
      (fun _ => rfl) (by rw [h1, List.map_id']) h2 h

theorem run_linesBelong (ops : List Op) :
    ∀ db : Store, LinesBelong db → LinesBelong (run db ops) := by
  induction ops with
  | nil => intro db h; exact h
  | cons op rest ih => intro db h; exact ih _ (step_linesBelong db op h)

theorem step_totalsMatch (db : Store) (op : Op) (hs : safeOp db op = true)
    (hb : LinesBelong db) (h : TotalsMatch db) : TotalsMatch (step db op) := by
  cases op with
  | createOrder customerId items now =>
    simp only [step]
    rcases createOrder_cases db customerId items now with ⟨e, he⟩ | ⟨lines, hc, hcols⟩
    · rw [he]; exact h
    · rw [hc]
      have htot := lineTotal_of_columns db _ lines items hcols
      have hfresh := selectOrderItems_fresh db hb
      intro o ho
      show o.total_cents = lineTotal (db.order_items ++ lines) o.id
      rw [lineTotal_append, htot]
      rcases List.mem_append.1 ho with ho | ho
      · have hne : ¬ o.id = (createdOrder db customerId items now).id :=
          nextId_fresh _ _ (List.mem_map_of_mem (fun o => o.id) ho)
        simp only [hne, if_false, add_zero]
        exact h o ho
      · rw [List.mem_singleton.1 ho]
        have h0 : lineTotal db.order_items (createdOrder db customerId items now).id = 0 := by
          simp only [selectOrderItems] at hfresh
          simp only [lineTotal, createdOrder, hfresh, List.map_nil, List.sum_nil]
        rw [h0]
        have hsafe : safeAmounts db 0 items = true := hs
        simp [createdOrder, jsTotal_of_safe db items 0 hsafe]
  | confirmOrder orderId k now =>
    simp only [step]
    rcases confirmOrder_cases db orderId k now with he | ⟨_, _, _, _, _, ho, hl⟩
    · rw [he]; exact h
    · exact totalsMatch_of_map db _
        (fun o => if o.id = orderId then
          { o with status := "CONFIRMED", confirmed_at := some now, updated_at := now } else o)
        (by intro o; dsimp only; split <;> exact ⟨rfl, rfl⟩) ho hl h
  | cancelOrder orderId now =>
    simp only [step]
    rcases cancelOrder_cases db orderId now with he | ⟨_, _, _, _, hc⟩
    · rw [he]; exact h
    · rw [hc]
      exact totalsMatch_of_map db _
        (fun o => if o.id = orderId then
          { o with status := "CANCELED", canceled_at := some now, updated_at := now } else o)
        (by intro o; dsimp only; split <;> exact ⟨rfl, rfl⟩) rfl rfl h
  | updateProduct id price_cents stock =>
    simp only [step]
    obtain ⟨h1, h2, _⟩ := updateProduct_tables db id price_cents stock
    exact totalsMatch_of_map db (updateProduct db id price_cents stock).1 (fun o => o)
      (fun _ => ⟨rfl, rfl⟩) (by rw [h1, List.map_id']) h2 h

theorem run_totalsMatch (ops : List Op) :
    ∀ db : Store, safeRun db ops = true → LinesBelong db → TotalsMatch db →
      TotalsMatch (run db ops) := by
  induction ops with
  | nil => intro db _ _ h; exact h
  | cons op rest ih =>
    intro db hs hb h
    simp only [safeRun, Bool.and_eq_true] at hs
    exact ih _ hs.2 (step_linesBelong db op hb) (step_totalsMatch db op hs.1 hb h)

theorem step_frame (db : Store) (op : Op) :
    ∃ newOrders newLines,
      (step db op).orders.map (fun o => (o.id, o.total_cents))
        = db.orders.map (fun o => (o.id, o.total_cents)) ++ newOrders ∧
      (step db op).order_items = db.order_items ++ newLines ∧
      ((∀ c i n, op ≠ .createOrder c i n) → newOrders = [] ∧ newLines = []) := by
  cases op with
  | createOrder customerId items now =>
    simp only [step]
    rcases createOrder_cases db customerId items now with ⟨e, he⟩ | ⟨lines, hc, _⟩
    · rw [he]; exact ⟨[], [], by simp, by simp, fun _ => ⟨rfl, rfl⟩⟩
    · rw [hc]
      exact ⟨_, lines, List.map_append _ _ _, rfl, fun h => absurd rfl (h _ _ _)⟩
  | confirmOrder orderId k now =>
    simp only [step]
    rcases confirmOrder_cases db orderId k now with he | ⟨_, _, _, _, _, ho, hl⟩
    · rw [he]; exact ⟨[], [], by simp, by simp, fun _ => ⟨rfl, rfl⟩⟩
    · refine ⟨[], [], ?_, by simp [hl], fun _ => ⟨rfl, rfl⟩⟩
      rw [ho]
      simp only [updateOrderConfirmed, List.map_map, List.append_nil]
      apply List.map_congr_left
      intro o _
      simp only [Function.comp]
      split <;> rfl
  | cancelOrder orderId now =>
    simp only [step]
    rcases cancelOrder_cases db orderId now with he | ⟨_, _, _, _, hc⟩
    · rw [he]; exact ⟨[], [], by simp, by simp, fun _ => ⟨rfl, rfl⟩⟩
    · rw [hc]
      refine ⟨[], [], ?_, by simp [updateOrderCanceled, adjustStock], fun _ => ⟨rfl, rfl⟩⟩
      simp only [updateOrderCanceled, adjustStock, List.map_map, List.append_nil]
      apply List.map_congr_left
      intro o _
      simp only [Function.comp]
      split <;> rfl
  | updateProduct id price_cents stock =>
    simp only [step]
    obtain ⟨h1, h2, _⟩ := updateProduct_tables db id price_cents stock
    exact ⟨[], [], by simp [h1], by simp [h2], fun _ => ⟨rfl, rfl⟩⟩

theorem step_frame_exact (db : Store) (op : Op) (h : ∀ c i n, op ≠ .createOrder c i n) :
    (step db op).orders.map (fun o => (o.id, o.total_cents))
      = db.orders.map (fun o => (o.id, o.total_cents)) ∧
    (step db op).order_items = db.order_items := by
  obtain ⟨no, nl, h1, h2, h3⟩ := step_frame db op
  obtain ⟨rfl, rfl⟩ := h3 h
  exact ⟨by simpa using h1, by simpa using h2⟩

theorem run_frame (ops : List Op) :
    ∀ db : Store, ∃ newOrders newLines,
      (run db ops).orders.map (fun o => (o.id, o.total_cents))
        = db.orders.map (fun o => (o.id, o.total_cents)) ++ newOrders ∧
      (run db ops).order_items = db.order_items ++ newLines := by
  induction ops with
  | nil => intro db; exact ⟨[], [], by simp [run], by simp [run]⟩
  | cons op rest ih =>
    intro db
    obtain ⟨no1, nl1, h1, h2, _⟩ := step_frame db op
    obtain ⟨no2, nl2, h3, h4⟩ := ih (step db op)
    refine ⟨no1 ++ no2, nl1 ++ nl2, ?_, ?_⟩
    · simp only [run]; rw [h3, h1, List.append_assoc]
    · simp only [run]; rw [h4, h2, List.append_assoc]

/-! ## C11 -/

/-- C11. (1) When order `orderId` is CREATED, or CONFIRMED with at most 10 minutes (600000 ms)
between its `confirmed_at` and the call, `cancelOrder` succeeds: every product row has its
stock raised by the total qty of the persisted lines of the order that reference its id (by 0
when none does), the order becomes CANCELED with `canceled_at = now`, order lines and
idempotency records are untouched, and the order returned has status CANCELED.
(2) In a store whose order lines all belong to an order of the store, cancelling an order
right after `createOrder` returned it leaves the products table exactly as it was before the
creation.  (3) Every store reached from one with no orders and no order lines is such a
store. -/
theorem cancelOrder_restores_stock :
    (∀ (db : Store) (orderId now : Nat) (order : Order) (rest : List Order),
      selectOrder db orderId = order :: rest →
      (order.status = "CREATED" ∨ (order.status = "CONFIRMED" ∧
        ∃ t : Nat, order.confirmed_at = some t ∧ (now : Int) - (t : Int) ≤ 600000)) →
        (cancelOrder db orderId now).1.products = db.products.map (fun p =>
          { p with stock := p.stock + restoredQty (selectOrderItems db orderId) p.id }) ∧
        (selectOrder (cancelOrder db orderId now).1 orderId).head?
          = some { order with status := "CANCELED", canceled_at := some now,
                              updated_at := now } ∧
        (cancelOrder db orderId now).1.order_items = db.order_items ∧
        (cancelOrder db orderId now).1.idempotency_keys = db.idempotency_keys ∧
        ∃ view, (cancelOrder db orderId now).2 = .ok (some view) ∧ view.status = "CANCELED" ∧
          view.canceled_at = some now ∧ view.id = order.id) ∧
    (∀ (db : Store) (customerId : Nat) (items : List Item) (now1 now2 orderId : Nat),
      LinesBelong db → (createOrder db customerId items now1).2 = .ok orderId →
        (cancelOrder (createOrder db customerId items now1).1 orderId now2).1.products
          = db.products ∧
        ∃ view, (cancelOrder (createOrder db customerId items now1).1 orderId now2).2
          = .ok (some view) ∧ view.status = "CANCELED") ∧
    (∀ db : Store, Reachable db → LinesBelong db) := by
  refine ⟨?_, ?_, ?_⟩
  · intro db orderId now order rest hsel hst
    apply cancelOrder_active_spec db orderId now order rest hsel
    · rcases hst with h | ⟨h, _⟩ <;> rw [h] <;> decide
    · rintro ⟨hc, hexp⟩
      rcases hst with h | ⟨_, t, ht, hle⟩
      · rw [h] at hc; exact absurd hc (by decide)
      · rw [windowExpired_iff, ht] at hexp
        simp only [Option.getD_some] at hexp
        omega
  · intro db customerId items now1 now2 orderId hfk hok
    rcases createOrder_cases db customerId items now1 with ⟨e, he⟩ | ⟨lines, hc, hcols⟩
    · rw [he] at hok; cases hok
    · rw [hc] at hok ⊢
      simp only [Except.ok.injEq] at hok
      rw [← hok]
      have hsel : selectOrder
          (⟨(adjustStock (reservedQty items) db).products,
            db.orders ++ [createdOrder db customerId items now1],
            db.order_items ++ lines, db.idempotency_keys⟩ : Store)
          (createdOrder db customerId items now1).id
          = [createdOrder db customerId items now1] := by
        have h0 := selectOrder_fresh db
        simp only [selectOrder] at h0
        simp only [selectOrder, List.filter_append, createdOrder, h0, List.nil_append]
        simp
      have hlines : selectOrderItems
          (⟨(adjustStock (reservedQty items) db).products,
            db.orders ++ [createdOrder db customerId items now1],
            db.order_items ++ lines, db.idempotency_keys⟩ : Store)
          (createdOrder db customerId items now1).id = lines := by
        have h0 := selectOrderItems_fresh db hfk
        simp only [selectOrderItems] at h0
        simp only [selectOrderItems, List.filter_append, createdOrder, h0, List.nil_append]
        apply filter_eq_self_of_forall
        intro l hl
        have := lines_order_id db _ lines items hcols l hl
        simpa [createdOrder] using this
      obtain ⟨hp, _, _, _, view, hv, hvs, _⟩ := cancelOrder_active_spec _
        (createdOrder db customerId items now1).id now2
        (createdOrder db customerId items now1) [] hsel
        (by show "CREATED" ≠ "CANCELED"; decide)
        (by
          rintro ⟨h, _⟩
          have h3 : "CREATED" = "CONFIRMED" := h
          exact absurd h3 (by decide))
      refine ⟨?_, view, hv, hvs⟩
      rw [hp, hlines]
      simp only [adjustStock, List.map_map]
      conv_rhs => rw [← List.map_id db.products]
      apply List.map_congr_left
      intro p _
      simp only [Function.comp, restoredQty_of_columns db _ lines items hcols, id]
      cases p
      simp
  · rintro db ⟨start, ops, _, hl, rfl⟩
    refine run_linesBelong ops start ?_
    intro l hlm; rw [hl] at hlm; cases hlm

/-- Witness of C11: in the scenario, cancelling order 1 (CREATED, one line of qty 2) brings the
stock of product 10 from 3 back to 5, its value before the order was created. -/
theorem cancelOrder_restores_stock_witness :
    selectOrder scn1 1 = [⟨1, 1, "CREATED", 2000, 7, 7, none, none⟩] ∧
    (cancelOrder scn1 1 8).1.products = scn1.products.map (fun p =>
      { p with stock := p.stock + restoredQty (selectOrderItems scn1 1) p.id }) ∧
    (cancelOrder scn1 1 8).1.products.map (fun p => p.stock) = [5] ∧
    (cancelOrder (createOrder scn0 1 [⟨10, 2⟩] 7).1 1 8).1.products = scn0.products :=
  ⟨by decide,
   (cancelOrder_restores_stock.1 scn1 1 8 ⟨1, 1, "CREATED", 2000, 7, 7, none, none⟩ []
      (by decide) (Or.inl rfl)).1,
   by decide,
   (cancelOrder_restores_stock.2.1 scn0 1 [⟨10, 2⟩] 7 8 1
      (cancelOrder_restores_stock.2.2 scn0 ⟨scn0, [], rfl, rfl, rfl⟩) (by decide)).1⟩

/-! ## C15 -/

/-- C15, as the claim states it, fails: the store `bigReached` is reached from a store with
no orders by one `createOrder`, and its order has `total_cents` 9007199515875288 while its
one line has `unit_price_cents × qty` = 94906267 × 94906267 = 9007199515875289. -/
theorem total_differs_from_lines :
    Reachable bigReached ∧
    bigReached.orders.map (fun o => (o.id, o.total_cents)) = [(1, 9007199515875288)] ∧
    lineTotal bigReached.order_items 1 = 9007199515875289 ∧
    ¬ TotalsMatch bigReached := by
  refine ⟨⟨bigStore, _, rfl, rfl, rfl⟩, by decide, by decide, ?_⟩
  intro h
  exact absurd (h ⟨1, 1, "CREATED", 9007199515875288, 7, 7, none, none⟩ (by decide))
    (by decide)

/-- C15, amended. (1) In every store reached from one with no orders and no order lines by a
sequence of `createOrder`, `confirmOrder`, `cancelOrder` and `updateProduct` calls in which
every `createOrder` keeps each `price × qty` and each running sum of them at most 2^53 in
absolute value, each order's `total_cents` is the sum over its lines of
`unit_price_cents × qty`.
(2) `confirmOrder`, `cancelOrder` and `updateProduct` leave the id and `total_cents` of every
order row and every row of `order_items` as they were; `createOrder`, and every sequence of
calls, only appends to these tables, so the rows that existed keep their `total_cents`, and
the lines their `product_id`, `qty`, `unit_price_cents` and `subtotal_cents`. -/
theorem totals_and_lines_frozen :
    (∀ db : Store, ReachableSafe db → TotalsMatch db) ∧
    (∀ (db : Store) (orderId : Nat) (k : Option String) (now : Nat),
      (confirmOrder db orderId k now).1.orders.map (fun o => (o.id, o.total_cents))
        = db.orders.map (fun o => (o.id, o.total_cents)) ∧
      (confirmOrder db orderId k now).1.order_items = db.order_items) ∧
    (∀ (db : Store) (orderId now : Nat),
      (cancelOrder db orderId now).1.orders.map (fun o => (o.id, o.total_cents))
        = db.orders.map (fun o => (o.id, o.total_cents)) ∧
      (cancelOrder db orderId now).1.order_items = db.order_items) ∧
    (∀ (db : Store) (id : Nat) (price_cents stock : Option Int),
      (updateProduct db id price_cents stock).1.orders = db.orders ∧
      (updateProduct db id price_cents stock).1.order_items = db.order_items) ∧
    (∀ (db : Store) (customerId : Nat) (items : List Item) (now : Nat),
      ∃ newOrders newLines,
        (createOrder db customerId items now).1.orders.map (fun o => (o.id, o.total_cents))
          = db.orders.map (fun o => (o.id, o.total_cents)) ++ newOrders ∧
        (createOrder db customerId items now).1.order_items = db.order_items ++ newLines) ∧
    (∀ (db : Store) (ops : List Op),
      ∃ newOrders newLines,
        (run db ops).orders.map (fun o => (o.id, o.total_cents))
          = db.orders.map (fun o => (o.id, o.total_cents)) ++ newOrders ∧
        (run db ops).order_items = db.order_items ++ newLines) := by
  refine ⟨?_, ?_, ?_, ?_, ?_, ?_⟩
  · rintro db ⟨start, ops, ho, hl, hs, rfl⟩
    refine run_totalsMatch ops start hs ?_ ?_
    · intro l hlm; rw [hl] at hlm; cases hlm
    · intro o hom; rw [ho] at hom; cases hom
  · intro db orderId k now
    exact step_frame_exact db (.confirmOrder orderId k now) (fun _ _ _ h => by cases h)
  · intro db orderId now
    exact step_frame_exact db (.cancelOrder orderId now) (fun _ _ _ h => by cases h)
  · intro db id price_cents stock
    exact ⟨(updateProduct_tables db id price_cents stock).1,
      (updateProduct_tables db id price_cents stock).2.1⟩
  · intro db customerId items now
    obtain ⟨no, nl, h1, h2, _⟩ := step_frame db (.createOrder customerId items now)
    exact ⟨no, nl, h1, h2⟩
  · intro db ops
    exact run_frame ops db

/-- Witness of C15 amended: the calls `c14Ops` on the scenario store keep their amounts exact;
after them, the last one raising the price of product 10 from 1000 to 1500, the two orders
still have totals 2000 and 1000, the sum over their lines. -/
theorem totals_and_lines_frozen_witness :
    safeRun scn0 c14Ops = true ∧
    TotalsMatch (run scn0 c14Ops) ∧
    (run scn0 c14Ops).products.map (fun p => p.price_cents) = [1500] ∧
    (run scn0 c14Ops).orders.map (fun o => (o.id, o.total_cents)) = [(1, 2000), (2, 1000)] ∧
    (run scn0 c14Ops).order_items.map OrderItem.columns
      = [(1, 10, 2, 1000, 2000), (2, 10, 1, 1000, 1000)] :=
  ⟨by decide,
   totals_and_lines_frozen.1 (run scn0 c14Ops) ⟨scn0, c14Ops, rfl, rfl, by decide, rfl⟩,
   by decide, by decide, by decide⟩

/-! ## C16 -/

theorem pageLimit_bounds (parseInt : String → Option Int) (limit : String) :
    1 ≤ pageLimit parseInt limit ∧ pageLimit parseInt limit ≤ 100 := by
  simp only [pageLimit]
  omega

theorem offset_nonneg (parseInt : String → Option Int) (cursor : String) :
    0 ≤ offset parseInt cursor := by
  simp only [offset]
  omega

/-- C16, as the claim states it, fails: for the 23-digit cursor `99999999999999999999999`
`parseInt` gives 99999999999999991611392, which is the offset; written into the statement it
is no integer literal that `OFFSET` accepts, the statement is rejected and `searchOrders`
throws instead of returning a cursor. -/
theorem searchOrders_rejects_large_cursor :
    sampleParseInt "99999999999999999999999" = some (toDouble 99999999999999999999999) ∧
    offset sampleParseInt "99999999999999999999999" = 99999999999999991611392 ∧
    searchOrders sampleParseInt c16Store none none none "99999999999999999999999" "2" = none := by
  decide

/-- C16, amended. For every cursor and limit: the offset is `max(0, parsed cursor)`, 0 when the
cursor does not parse; the page size is 20 when the limit does not parse or parses to 0, and
otherwise the parsed limit clamped into [1, 100]; it always lies in [1, 100].  When the offset
is at most 2^53 − 100, the call returns; the rows returned are those of the matching orders, in
descending id order, from position offset on, at most page-size of them, so their number is
the smaller of the page size and the number of matching orders past the offset; the returned
cursor is the offset plus the number of rows returned; and `hasMore` is true exactly when the
number of rows returned equals the page size. -/
theorem searchOrders_pagination (parseInt : String → Option Int) (db : Store)
    (status : Option String) (from_at to_at : Option Nat) (cursor limit : String) :
    offset parseInt cursor = max 0 ((parseInt cursor).getD 0) ∧
    (parseInt cursor = none → offset parseInt cursor = 0) ∧
    ((parseInt limit = none ∨ parseInt limit = some 0) → pageLimit parseInt limit = 20) ∧
    (∀ v, parseInt limit = some v → v ≠ 0 → pageLimit parseInt limit = min (max 1 v) 100) ∧
    1 ≤ pageLimit parseInt limit ∧ pageLimit parseInt limit ≤ 100 ∧
    (offset parseInt cursor + 100 ≤ 2 ^ 53 →
      ∃ r, searchOrders parseInt db status from_at to_at cursor limit = some r ∧
        r.data = ((matchingOrders db status from_at to_at).drop
          (offset parseInt cursor).toNat).take (pageLimit parseInt limit).toNat ∧
        (r.data.length : Int) = min (pageLimit parseInt limit)
          (max 0 ((matchingOrders db status from_at to_at).length - offset parseInt cursor)) ∧
        (r.data.length : Int) ≤ pageLimit parseInt limit ∧
        r.cursor = offset parseInt cursor + r.data.length ∧
        (r.hasMore = true ↔ (r.data.length : Int) = pageLimit parseInt limit)) := by
  obtain ⟨hlo, hhi⟩ := pageLimit_bounds parseInt limit
  have hoff := offset_nonneg parseInt cursor
  refine ⟨?_, ?_, ?_, ?_, hlo, hhi, ?_⟩
  · simp only [offset, orElse]
    cases parseInt cursor with
    | none => rfl
    | some v => by_cases hv : v = 0 <;> simp [hv]
  · intro h
    simp [offset, orElse, h]
  · rintro (h | h) <;> simp [pageLimit, orElse, h]
  · intro v h hv
    simp [pageLimit, orElse, h, hv]
  · intro hsafe
    have hlt : ¬ (2 : Int) ^ 64 ≤ offset parseInt cursor := by
      have : (2 : Int) ^ 53 < 2 ^ 64 := by norm_num
      omega
    have hlen : ∀ l : List Order,
        (((l.drop (offset parseInt cursor).toNat).take
          (pageLimit parseInt limit).toNat).length : Int) ≤ 100 := by
      intro l
      simp only [List.length_take]
      omega
    simp only [searchOrders, hlt, if_false]
    refine ⟨_, rfl, ?_, ?_, ?_, ?_, ?_⟩
    · simp only [matchingOrders, List.map_drop, List.map_take]
    · simp only [matchingOrders, List.length_map, List.length_take, List.length_drop]
      omega
    · simp only [List.length_map, List.length_take]
      omega
    · simp only [List.length_map]
      apply toDouble_of_safe
      have := hlen (List.insertionSort idDesc
        (db.orders.filter (searchFilter status from_at to_at)))
      have h53 : (2 : Int) ^ 53 = 9007199254740992 := by norm_num
      omega
    · simp only [List.length_map, decide_eq_true_eq]

/-- Witness of C16 amended on a store with three orders: an unparsable cursor and limit give
offset 0 and page size 20; limit 250 is cut to 100, limit -3 raised to 1, limit 0 replaced by
20; a page of size 2 from offset 1 returns orders 2 and 1 of the matching orders 3, 2, 1, with
cursor 3 and `hasMore` true; from offset 2 it returns order 1 alone and `hasMore` false. -/
theorem searchOrders_pagination_witness :
    offset sampleParseInt "abc" = 0 ∧ offset sampleParseInt "-3" = 0 ∧
    offset sampleParseInt "40" = 40 ∧
    pageLimit sampleParseInt "abc" = 20 ∧ pageLimit sampleParseInt "0" = 20 ∧
    pageLimit sampleParseInt "250" = 100 ∧ pageLimit sampleParseInt "-3" = 1 ∧
    pageLimit sampleParseInt "40" = 40 ∧
    (matchingOrders c16Store none none none).map (fun o => o.id) = [3, 2, 1] ∧
    (∃ r, searchOrders sampleParseInt c16Store none none none "1" "2" = some r ∧
      r.data = ((matchingOrders c16Store none none none).drop 1).take 2) ∧
    (searchOrders sampleParseInt c16Store none none none "1" "2").map
        (fun r => (r.data.map (fun o => o.id), r.cursor, r.hasMore))
      = some ([2, 1], 3, true) ∧
    (searchOrders sampleParseInt c16Store none none none "2" "2").map
        (fun r => (r.data.map (fun o => o.id), r.cursor, r.hasMore))
      = some ([1], 3, false) :=
  ⟨by decide, by decide, by decide, by decide, by decide, by decide, by decide, by decide,
   by decide,
   (by
     obtain ⟨r, h1, h2, _⟩ :=
       (searchOrders_pagination sampleParseInt c16Store none none none "1" "2").2.2.2.2.2.2
         (by decide)
     exact ⟨r, h1, h2⟩),
   by decide, by decide⟩

/-! ## C17 -/

/-- C17. For every valid request and whatever the services answer:
(a) if the customer lookup does not return success (not found, or it throws), the result is a
404 with a customer-not-found message and the only call issued is the lookup;
(b) if the lookup succeeds and the create call does not, the result is a 400 and the calls
are the lookup then the create call, no confirm call;
(c) if both succeed and the confirm call does not, the result is a 400 and the calls are the
lookup, the create call, then the confirm call for the id of the order the create call
returned, under the request's idempotency key;
(d) if all three succeed, the result is a 201 whose body holds the customer as the lookup
returned it and, of the order the confirm call returned, the id, status and total and one item
per line, in order, with the line's product id, product name, sku, qty, unit price and
subtotal, after the same three calls in that order;
hence the result is a 201 only if all three steps succeeded, a create call is issued only
after a successful lookup, and a confirm call only after a successful create call, for the id
of the order it returned. -/
theorem orchestrator_steps (svc : Services) (value : OrderRequest) :
    (succeeded (svc.getCustomer value.customer_id) = none →
      (createAndConfirmOrder svc (.valid value)).1.statusCode = 404 ∧
      ((createAndConfirmOrder svc (.valid value)).1.body
          = .failure "Customer not found" value.correlation_id ∨
        (createAndConfirmOrder svc (.valid value)).1.body
          = .failure "Customer not found or service unavailable" value.correlation_id) ∧
      (createAndConfirmOrder svc (.valid value)).2 = [.getCustomer value.customer_id]) ∧
    (∀ customer, succeeded (svc.getCustomer value.customer_id) = some customer →
      succeeded (svc.postOrder value.customer_id value.items) = none →
        (createAndConfirmOrder svc (.valid value)).1.statusCode = 400 ∧
        (createAndConfirmOrder svc (.valid value)).2
          = [.getCustomer value.customer_id, .postOrder value.customer_id value.items]) ∧
    (∀ customer order, succeeded (svc.getCustomer value.customer_id) = some customer →
      succeeded (svc.postOrder value.customer_id value.items) = some order →
      succeeded (svc.postConfirm order.id value.idempotency_key) = none →
        (createAndConfirmOrder svc (.valid value)).1.statusCode = 400 ∧
        (createAndConfirmOrder svc (.valid value)).2
          = [.getCustomer value.customer_id, .postOrder value.customer_id value.items,
             .postConfirm order.id value.idempotency_key]) ∧
    (∀ customer order confirmed, succeeded (svc.getCustomer value.customer_id) = some customer →
      succeeded (svc.postOrder value.customer_id value.items) = some order →
      succeeded (svc.postConfirm order.id value.idempotency_key) = some confirmed →
        createAndConfirmOrder svc (.valid value)
          = (⟨201, .success value.correlation_id customer
                ⟨confirmed.id, confirmed.status, confirmed.total_cents,
                 confirmed.items.map (fun item =>
                   ⟨item.product_id, item.product_name, item.sku, item.qty,
                    item.unit_price_cents, item.subtotal_cents⟩)⟩⟩,
             [.getCustomer value.customer_id, .postOrder value.customer_id value.items,
              .postConfirm order.id value.idempotency_key])) ∧
    ((createAndConfirmOrder svc (.valid value)).1.statusCode = 201 →
      ∃ customer order confirmed,
        succeeded (svc.getCustomer value.customer_id) = some customer ∧
        succeeded (svc.postOrder value.customer_id value.items) = some order ∧
        succeeded (svc.postConfirm order.id value.idempotency_key) = some confirmed) ∧
    (Call.postOrder value.customer_id value.items ∈ (createAndConfirmOrder svc (.valid value)).2 →
      ∃ customer, succeeded (svc.getCustomer value.customer_id) = some customer) ∧
    (∀ order_id key,
      Call.postConfirm order_id key ∈ (createAndConfirmOrder svc (.valid value)).2 →
        ∃ order, succeeded (svc.postOrder value.customer_id value.items) = some order ∧
          order_id = order.id ∧ key = value.idempotency_key) := by
  cases h1 : svc.getCustomer value.customer_id with
  | thrown e1 => simp [createAndConfirmOrder, succeeded, h1]
  | response r1 =>
    obtain ⟨s1, d1, e1⟩ := r1
    cases s1 with
    | false => simp [createAndConfirmOrder, succeeded, h1]
    | true =>
      cases d1 with
      | none => simp [createAndConfirmOrder, succeeded, h1]
      | some customer =>
        cases h2 : svc.postOrder value.customer_id value.items with
        | thrown e2 => simp [createAndConfirmOrder, createStep, succeeded, h1, h2]
        | response r2 =>
          obtain ⟨s2, d2, e2⟩ := r2
          cases s2 with
          | false => simp [createAndConfirmOrder, createStep, succeeded, h1, h2]
          | true =>
            cases d2 with
            | none => simp [createAndConfirmOrder, createStep, succeeded, h1, h2]
            | some order =>
              cases h3 : svc.postConfirm order.id value.idempotency_key with
              | thrown e3 =>
                simp [createAndConfirmOrder, createStep, confirmStep, succeeded, h1, h2, h3]
                intro c o cf hc ho
                subst hc; subst ho
                simp [h3]
              | response r3 =>
                obtain ⟨s3, d3, e3⟩ := r3
                cases s3 with
                | false =>
                  simp [createAndConfirmOrder, createStep, confirmStep, succeeded, h1, h2, h3]
                  intro c o cf hc ho
                  subst hc; subst ho
                  simp [h3]
                | true =>
                  cases d3 with
                  | none =>
                    simp [createAndConfirmOrder, createStep, confirmStep, succeeded, h1, h2, h3]
                    intro c o cf hc ho
                    subst hc; subst ho
                    simp [h3]
                  | some confirmed =>
                    simp [createAndConfirmOrder, createStep, confirmStep, succeeded, h1, h2, h3]
                    intro c o cf hc ho
                    subst hc; subst ho
                    simp [h3]
                    intro hcf
                    rw [hcf]
                    rfl

/-- Witness of C17: when the lookup throws the result is a 404 after the lookup alone; when
the create call is refused the result is a 400 with the service's message and no confirm call;
when all calls succeed the result is a 201 after the three calls, the confirm call being for
order 7, the id the create call returned. -/
theorem orchestrator_steps_witness :
    createAndConfirmOrder servicesNoCustomer (.valid sampleRequest)
      = (⟨404, .failure "Customer not found or service unavailable" (some "corr-1")⟩,
         [.getCustomer 1]) ∧
    createAndConfirmOrder servicesNoStock (.valid sampleRequest)
      = (⟨400, .failure "Insufficient stock for product 10" (some "corr-1")⟩,
         [.getCustomer 1, .postOrder 1 [⟨10, 2⟩]]) ∧
    createAndConfirmOrder servicesOk (.valid sampleRequest)
      = (⟨201, .success (some "corr-1") ⟨1, "Acme", "buyer@acme.test", "555-0100"⟩
            ⟨7, "CONFIRMED", 2000, [⟨10, "Widget", "SKU-10", 2, 1000, 2000⟩]⟩⟩,
         [.getCustomer 1, .postOrder 1 [⟨10, 2⟩], .postConfirm 7 "abc"]) :=
  ⟨by decide, by decide,
   (orchestrator_steps servicesOk sampleRequest).2.2.2.1 sampleCustomer sampleCreated
     sampleConfirmed rfl rfl rfl⟩

end B2BOrders
